import Mathlib

/-!
# Verification of the bulk-ingestion pipeline of the contacts backend

Shallow embedding of the contact / document bulk-ingestion pipeline:
`src/services/contact.service.ts` (`bulkUploadContacts`, `normalizeBloodGroup`),
`src/services/document.service.ts` (`bulkUploadDocuments`),
`src/validators/contact.validator.ts` (`csvContactSchema`, `createContactSchema`),
`src/middleware/csvParser.ts` (`parseCSV`, `normalizeColumnName`,
`normalizePhoneNumber`) and `src/controllers/contact.controller.ts`
(`bulkUpload`, `bulkCreate`).

Store interactions are modelled by an explicit environment (`DbEnv`) that fixes,
for each chunk transaction and each individual upsert, whether the operation
succeeds or fails and with which error; the persistent store is a list of rows,
transactions apply all their writes atomically or none.
-/

namespace ContactsBackend

/-! ## JS string primitives used by the pipeline -/

/-- The ASCII part of the JavaScript `\s` class / `String.prototype.trim`
whitespace set. -/
def isJsSpace (c : Char) : Bool :=
  c = ' ' || c = '\t' || c = '\n' || c = '\r' || c = '\x0b' || c = '\x0c'

def jsTrimList (l : List Char) : List Char :=
  ((l.dropWhile isJsSpace).reverse.dropWhile isJsSpace).reverse

/-- `String.prototype.trim`. -/
def jsTrim (s : String) : String := String.mk (jsTrimList s.data)

/-- `String.prototype.toLowerCase` (ASCII). -/
def jsToLower (s : String) : String := String.mk (s.data.map Char.toLower)

/-- `String.prototype.toUpperCase` (ASCII). -/
def jsToUpper (s : String) : String := String.mk (s.data.map Char.toUpper)

/-- Does the pattern (first argument) start the other list? -/
def startsWithChars : List Char → List Char → Bool
  | [], _ => true
  | _ :: _, [] => false
  | p :: ps, c :: cs => p = c && startsWithChars ps cs

def containsSub : List Char → List Char → Bool
  | [], pat => pat.isEmpty
  | c :: cs, pat => startsWithChars pat (c :: cs) || containsSub cs pat

/-- `String.prototype.includes`. -/
def strContains (s pat : String) : Bool := containsSub s.data pat.data

/-! ## Zod validation of contact rows

`csvContactSchema` (`contact.validator.ts`): `name` is a string with `.min(1)`,
`phone` is a string with `.min(10)` and
`.regex(/^[+]?[\d\s-()]+$/)`; `bloodGroup`, `lobby` and `designation` are
optional strings.  Zod runs the checks of a field in declaration order and
collects every failed check as an issue; an object parse fails when any field
produced issues, and the service reports the first issue. -/

structure ZodIssue where
  code : String
  message : String
  path : String
deriving Repr, DecidableEq

/-- A raw row as submitted to `bulkUploadContacts` (`none` = the key is absent). -/
structure RawContact where
  name : Option String
  phone : Option String
  bloodGroup : Option String
  lobby : Option String
  designation : Option String
deriving Repr, DecidableEq

/-- The output type of `csvContactSchema.parse`. -/
structure ValidContact where
  name : String
  phone : String
  bloodGroup : Option String
  lobby : Option String
  designation : Option String
deriving Repr, DecidableEq

/-- One character of the body of `/^[+]?[\d\s-()]+$/`: the class
`[\d\s-()]` contains digits, whitespace, `-`, `(` and `)`. -/
def isPhoneBodyChar (c : Char) : Bool :=
  c.isDigit || isJsSpace c || c = '-' || c = '(' || c = ')'

/-- `/^[+]?[\d\s-()]+$/`: an optional leading `+` followed by one or more
characters of the class. -/
def phoneRegexOk (s : String) : Bool :=
  let body := if s.data.head? = some '+' then s.data.tail else s.data
  !body.isEmpty && body.all isPhoneBodyChar

/-- Issues of the `name` field of `csvContactSchema`
(`z.string().min(1, 'Name is required')`). -/
def nameIssues (v : Option String) : List ZodIssue :=
  match v with
  | none => [⟨"invalid_type", "Required", "name"⟩]
  | some s => if s.length < 1 then [⟨"too_small", "Name is required", "name"⟩] else []

/-- Issues of the `phone` field of `csvContactSchema`
(`z.string().min(10, ...).regex(...)`). -/
def phoneIssuesCsv (v : Option String) : List ZodIssue :=
  match v with
  | none => [⟨"invalid_type", "Required", "phone"⟩]
  | some s =>
    (if s.length < 10 then
      [⟨"too_small", "Phone number must be at least 10 digits", "phone"⟩] else [])
    ++ (if phoneRegexOk s then [] else
      [⟨"invalid_string", "Invalid phone number format", "phone"⟩])

/-- `csvContactSchema.parse`: the optional fields accept any string or absence,
so only `name` and `phone` can contribute issues. -/
def parseContact (r : RawContact) : Except (List ZodIssue) ValidContact :=
  match r.name, r.phone with
  | some n, some p =>
    let issues := nameIssues (some n) ++ phoneIssuesCsv (some p)
    if issues.isEmpty then .ok ⟨n, p, r.bloodGroup, r.lobby, r.designation⟩
    else .error issues
  | _, _ => .error (nameIssues r.name ++ phoneIssuesCsv r.phone)

/-- Acceptance of a string by the `phone` field of `csvContactSchema`
(`contact.validator.ts` lines 26-36). -/
def phoneAcceptedCsv (s : String) : Bool := (phoneIssuesCsv (some s)).isEmpty

/-- Issues of the `phone` field of `createContactSchema`
(`z.string().min(10, ...).max(15, ...).regex(...)`,
`contact.validator.ts` lines 4-15). -/
def phoneIssuesCreate (s : String) : List ZodIssue :=
  (if s.length < 10 then
    [⟨"too_small", "Phone number must be at least 10 digits", "phone"⟩] else [])
  ++ (if 15 < s.length then
    [⟨"too_big", "Phone number is too long", "phone"⟩] else [])
  ++ (if phoneRegexOk s then [] else
    [⟨"invalid_string", "Invalid phone number format", "phone"⟩])

/-- Acceptance of a string by the `phone` field of `createContactSchema`. -/
def phoneAcceptedCreate (s : String) : Bool := (phoneIssuesCreate s).isEmpty

/-! ## Error entries and the `parseZodError` helper of the service -/

/-- One entry of the `errors` array returned by the bulk upload
(`row` is an `Int`: the connection-loss sentinel uses `-1`). -/
structure ErrEntry where
  row : Int
  error : String
  type : String
  field : Option String
deriving Repr, DecidableEq

/-- The message rewriting of `parseZodError` in `bulkUploadContacts`. -/
def friendlyMessage (i : ZodIssue) : String :=
  let fieldTag := if i.path = "" then "" else i.path ++ ": "
  if i.code = "too_small" then fieldTag ++ "Value is too short"
  else if i.code = "too_big" then fieldTag ++ "Value is too long"
  else if i.code = "invalid_type" then fieldTag ++ "Invalid value type"
  else if i.code = "invalid_string" || i.code = "invalid_format" then
    fieldTag ++ "Invalid format"
  else i.message

/-- The error entry built from a Zod failure at the given 1-based row:
`parseZodError` takes the first issue, its code becomes the entry type
(defaulting to `validation_error`), its path the field. -/
def errEntryOfIssues (row : Nat) (issues : List ZodIssue) : ErrEntry :=
  match issues.head? with
  | none => ⟨(row : Int), "Validation failed", "validation_error", none⟩
  | some i =>
    ⟨(row : Int), friendlyMessage i,
      if i.code = "" then "validation_error" else i.code,
      if i.path = "" then none else some i.path⟩

/-! ## Validation and in-batch deduplication (`bulkUploadContacts`) -/

/-- The in-batch duplicate error entry pushed for the 1-based row `row`. -/
def dupEntry (row : Nat) (phone : String) : ErrEntry :=
  ⟨(row : Int), "Duplicate phone number in CSV: " ++ phone, "duplicate", some "phone"⟩

/-- The `contacts.forEach` loop of `bulkUploadContacts`: validate each row,
then reject rows whose parsed phone is already in `phoneSet`; a row that fails
validation produces an error entry and does not touch `phoneSet`. -/
def validateDedupAux (rows : List RawContact) (idx : Nat) (phones : List String)
    (vcs : List ValidContact) (errs : List ErrEntry) :
    List ValidContact × List ErrEntry :=
  match rows with
  | [] => (vcs, errs)
  | r :: rest =>
    match parseContact r with
    | .error issues =>
      validateDedupAux rest (idx + 1) phones vcs (errs ++ [errEntryOfIssues (idx + 1) issues])
    | .ok v =>
      if phones.contains v.phone then
        validateDedupAux rest (idx + 1) phones vcs (errs ++ [dupEntry (idx + 1) v.phone])
      else
        validateDedupAux rest (idx + 1) (phones ++ [v.phone]) (vcs ++ [v]) errs

def validateDedup (rows : List RawContact) : List ValidContact × List ErrEntry :=
  validateDedupAux rows 0 [] [] []

/-! ## Data preparation -/

def VALID_BLOOD_GROUPS : List String :=
  ["A+", "A-", "B+", "B-", "AB+", "AB-", "O+", "O-"]

/-- `normalizeBloodGroup` of `contact.service.ts`. -/
def normalizeBloodGroup (bg : Option String) : Option String :=
  match bg with
  | none => none
  | some s =>
    if s = "" || jsTrim s = "" then none
    else
      let n := jsToUpper (jsTrim s)
      if VALID_BLOOD_GROUPS.contains n then some n else some "No Data"

/-- A row of the contacts table (`dataToInsert` element). -/
structure ContactData where
  name : String
  phone : String
  bloodGroup : Option String
  lobby : Option String
  designation : Option String
deriving Repr, DecidableEq

/-- JS `x || null` on an optional string. -/
def orNull (v : Option String) : Option String :=
  match v with
  | some s => if s = "" then none else some s
  | none => none

/-- The `dataToInsert` mapping of `bulkUploadContacts`. -/
def toData (c : ValidContact) : ContactData :=
  ⟨c.name, c.phone, normalizeBloodGroup c.bloodGroup, orNull c.lobby, orNull c.designation⟩

/-! ## Store and failure environment

The persistent contacts table is a list of rows; the database enforces
uniqueness of `phone` (`phone String @unique` in the Prisma model).  A `DbEnv`
fixes the outcome of every store operation of one ingestion call: `tx k` is the
outcome of the `k`-th chunk transaction (or, for documents, of the `k`-th
chunk), `up g` the outcome of the standalone upsert of the record at global
position `g` of `dataToInsert`, and `createMany` the outcome of the
`replaceAll` bulk insert. -/

abbrev Store := List ContactData

/-- `prisma.contact.upsert({ where: { phone }, update: data, create: data })`:
overwrite the row holding the phone when present, append otherwise. -/
def upsert (store : Store) (d : ContactData) : Store :=
  if store.any (fun r => r.phone = d.phone) then
    store.map (fun r => if r.phone = d.phone then d else r)
  else store ++ [d]

/-- `prisma.contact.createMany({ data, skipDuplicates: true })` on `store`:
insert each row whose phone is not yet present, return the new store and the
count of inserted rows. -/
def createManySkipDup (store : Store) : List ContactData → Store × Nat
  | [] => (store, 0)
  | d :: ds =>
    if store.any (fun r => r.phone = d.phone) then createManySkipDup store ds
    else
      let p := createManySkipDup (store ++ [d]) ds
      (p.1, p.2 + 1)

structure DbError where
  code : Option String
  message : String
deriving Repr, DecidableEq

inductive TxOutcome where
  | ok
  | fail (e : DbError)
deriving Repr, DecidableEq

structure DbEnv where
  tx : Nat → TxOutcome
  up : Nat → Option DbError
  createMany : TxOutcome

/-- The connection/timeout classifier of the chunk `catch` block:
Prisma codes `P1001`/`P1008` or a message containing one of the four
signatures. -/
def isConnectionError (e : DbError) : Bool :=
  e.code = some "P1001" || e.code = some "P1008" ||
  strContains e.message "timeout" || strContains e.message "connection" ||
  strContains e.message "ECONNRESET" || strContains e.message "ETIMEDOUT"

/-- The duplicate classifier of the individual-insert `catch` blocks. -/
def isUniqueViolation (e : DbError) : Bool :=
  strContains e.message "Unique constraint" || strContains e.message "P2002"

/-- The service strips filesystem paths from store error messages with two
regex replacements, trims, and falls back to `'Insert failed'`; the two
path-stripping replacements are not modelled (no theorem below inspects
message text), the trim and the fallback are. -/
def sanitizeMessage (m : String) : String :=
  if jsTrim m = "" then "Insert failed" else jsTrim m

/-- Row attributed to an individual upsert failure.  The source computes
`contacts.indexOf(validContacts[originalIndex]) + 1` when
`originalIndex = validContacts.findIndex(vc => vc.phone === data.phone)` is
nonnegative.  `Array.prototype.indexOf` compares with strict equality (`===`),
and the elements of `validContacts` are objects freshly allocated by
`csvContactSchema.parse`, never reference-equal to the raw objects of
`contacts`; the lookup therefore yields `-1` and the attributed row is
`-1 + 1 = 0`.  When `findIndex` misses, the source uses the surrounding loop
counter plus one. -/
def attributedRow (vcs : List ValidContact) (phone : String) (fallback : Nat) : Int :=
  if vcs.any (fun vc => vc.phone = phone) then (-1 : Int) + 1 else (fallback : Int) + 1

/-! ## The chunked upsert engine (`replaceAll = false`) -/

def chunkSize : Nat := 500

/-- State threaded through the chunk loop.  `txAttempts` counts started chunk
transactions and `upsertCalls` counts standalone (row-by-row) upsert attempts;
both are observation counters for the halt-semantics theorems. -/
@[ext]
structure LoopState where
  store : Store
  created : Nat
  errors : List ErrEntry
  connectionLost : Bool
  txAttempts : Nat
  upsertCalls : Nat
deriving Repr, DecidableEq

/-- One standalone upsert of the row-by-row retry (`g` is the global position
of the record in `dataToInsert`, `fallback` the loop counter used when
`findIndex` misses). -/
def retryRecord (env : DbEnv) (vcs : List ValidContact) (g : Nat) (fallback : Nat)
    (d : ContactData) (st : LoopState) : LoopState :=
  match env.up g with
  | none =>
    { st with store := upsert st.store d, created := st.created + 1,
              upsertCalls := st.upsertCalls + 1 }
  | some e =>
    let uniq := isUniqueViolation e
    let msg := if uniq then "Phone number already exists in database"
               else sanitizeMessage e.message
    let ty := if uniq then "duplicate" else "insert_error"
    { st with
        errors := st.errors ++ [⟨attributedRow vcs d.phone fallback, msg, ty, some "phone"⟩],
        upsertCalls := st.upsertCalls + 1 }

/-- The `for (const data of chunk)` retry loop: `i` is the chunk start offset
(the source uses it as the fallback row base), `g` the global record index. -/
def retryChunk (env : DbEnv) (vcs : List ValidContact) (i : Nat) :
    List ContactData → Nat → LoopState → LoopState
  | [], _, st => st
  | d :: ds, g, st => retryChunk env vcs i ds (g + 1) (retryRecord env vcs g i d st)

/-- `dataToInsert.slice(i, i + chunkSize)` partitioning, via structural
recursion on a fuel (the fuel `l.length` always suffices since every step
consumes at least one element). -/
def toChunksFuel : Nat → List ContactData → List (List ContactData)
  | _, [] => []
  | 0, _ :: _ => []
  | fuel + 1, d :: ds => (d :: ds).take chunkSize :: toChunksFuel fuel ((d :: ds).drop chunkSize)

def toChunks (l : List ContactData) : List (List ContactData) := toChunksFuel l.length l

/-- The chunk loop of `bulkUploadContacts`: a successful transaction applies
every upsert of the chunk; a connection-class failure sets the flag and breaks;
any other failure retries the chunk row by row. -/
def chunkLoop (env : DbEnv) (vcs : List ValidContact) :
    List (List ContactData) → Nat → Nat → LoopState → LoopState
  | [], _, _, st => st
  | chunk :: rest, k, i, st =>
    match env.tx k with
    | .ok =>
      chunkLoop env vcs rest (k + 1) (i + chunkSize)
        { st with store := chunk.foldl upsert st.store,
                  created := st.created + chunk.length,
                  txAttempts := st.txAttempts + 1 }
    | .fail e =>
      if isConnectionError e then
        { st with connectionLost := true, txAttempts := st.txAttempts + 1 }
      else
        chunkLoop env vcs rest (k + 1) (i + chunkSize)
          (retryChunk env vcs i chunk i { st with txAttempts := st.txAttempts + 1 })

/-- The final `catch` fallback: retry every record of `dataToInsert`
individually (`i` is both the global record index and the fallback row base). -/
def fallbackLoop (env : DbEnv) (vcs : List ValidContact) :
    List ContactData → Nat → LoopState → LoopState
  | [], _, st => st
  | d :: ds, i, st => fallbackLoop env vcs ds (i + 1) (retryRecord env vcs i i d st)

/-! ## Report and the full `bulkUploadContacts` -/

/-- Increment of a key of a JS object used as a histogram. -/
def bump (h : List (String × Nat)) (k : String) (n : Nat) : List (String × Nat) :=
  if h.any (fun p => p.1 = k) then
    h.map (fun p => if p.1 = k then (p.1, p.2 + n) else p)
  else h ++ [(k, n)]

def histByType (errs : List ErrEntry) : List (String × Nat) :=
  errs.foldl (fun h e => bump h e.type 1) []

def histByField (errs : List ErrEntry) : List (String × Nat) :=
  errs.foldl (fun h e => match e.field with | some f => bump h f 1 | none => h) []

structure Report where
  total : Nat
  created : Nat
  failed : Nat
  errorsByType : List (String × Nat)
  errorsByField : List (String × Nat)
  connectionLost : Option Bool
  partialUpload : Option Bool
  processedContacts : Option Nat
  notProcessedContacts : Option Nat
  message : Option String
deriving Repr, DecidableEq

structure UploadOutcome where
  created : Nat
  errors : List ErrEntry
  report : Report
  store : Store
  txAttempts : Nat
  upsertCalls : Nat
deriving Repr, DecidableEq

/-- The batch-level summary entry appended on connection loss. -/
def connSentinel (created notProcessed : Nat) : ErrEntry :=
  ⟨-1,
    "Connection lost during upload. " ++ toString created ++
      " contacts uploaded successfully. " ++ toString notProcessed ++
      " contacts were not processed.",
    "connection_error", none⟩

/-- The retry-guidance message of the connection-loss report. -/
def connMessage (created notProcessed : Nat) : String :=
  "Connection lost during upload. " ++ toString created ++
    " contacts uploaded successfully. " ++ toString notProcessed ++
    " contacts were not processed. You can safely retry the upload - already uploaded contacts will be updated, not duplicated."

/-- `bulkUploadContacts(contacts, replaceAll)` run against initial store
`store0` under failure environment `env`. -/
def bulkUploadContacts (env : DbEnv) (store0 : Store) (contacts : List RawContact)
    (replaceAll : Bool) : UploadOutcome :=
  let store1 := if replaceAll then [] else store0
  let vres := validateDedup contacts
  let validContacts := vres.1
  let errors0 := vres.2
  let ebt := histByType errors0
  let ebf := histByField errors0
  let report0 : Report :=
    ⟨contacts.length, 0, errors0.length, ebt, ebf, none, none, none, none, none⟩
  if validContacts.isEmpty then
    ⟨0, errors0, report0, store1, 0, 0⟩
  else
    let dataToInsert := validContacts.map toData
    if replaceAll then
      match env.createMany with
      | .ok =>
        let p := createManySkipDup store1 dataToInsert
        ⟨p.2, errors0, { report0 with created := p.2 }, p.1, 0, 0⟩
      | .fail _ =>
        let st := fallbackLoop env validContacts dataToInsert 0
          ⟨store1, 0, errors0, false, 0, 0⟩
        ⟨st.created, st.errors,
          { report0 with created := st.created, failed := st.errors.length,
                         errorsByType := histByType st.errors,
                         errorsByField := histByField st.errors },
          st.store, 0, st.upsertCalls⟩
    else
      let st := chunkLoop env validContacts (toChunks dataToInsert) 0 0
        ⟨store1, 0, errors0, false, 0, 0⟩
      if st.connectionLost then
        let notProcessed := dataToInsert.length - st.created
        ⟨st.created, st.errors ++ [connSentinel st.created notProcessed],
          { report0 with
              created := st.created,
              failed := st.errors.length + notProcessed,
              errorsByType := bump ebt "connection_error" notProcessed,
              connectionLost := some true,
              partialUpload := some true,
              processedContacts := some st.created,
              notProcessedContacts := some notProcessed,
              message := some (connMessage st.created notProcessed) },
          st.store, st.txAttempts, st.upsertCalls⟩
      else
        ⟨st.created, st.errors, { report0 with created := st.created },
          st.store, st.txAttempts, st.upsertCalls⟩

/-! ## Document ingestion (`document.service.ts`, `bulkUploadDocuments`)

`createDocumentSchema` (`document.validator.ts`): `title` is a string with
`.min(1).max(500)`, `link` a string with `.url().min(1)`, `uploadedBy` an
optional string with `.max(255)` (or the literal `''`). -/

structure RawDocument where
  title : Option String
  link : Option String
  uploadedBy : Option String
deriving Repr, DecidableEq

structure ValidDocument where
  title : String
  link : String
  uploadedBy : Option String
deriving Repr, DecidableEq

/-- Split a character list at the first occurrence of `://`. -/
def splitScheme : List Char → Option (List Char × List Char)
  | [] => none
  | c :: cs =>
    if startsWithChars [':', '/', '/'] (c :: cs) then some ([], (c :: cs).drop 3)
    else
      match splitScheme cs with
      | some p => some (c :: p.1, p.2)
      | none => none

/-- Modelled from the spec: "link must parse as an absolute URL" — the check is
zod's `.url()`, implemented inside the zod library, not in this repository.
Modelled as a nonempty alphabetic scheme followed by `://` and a nonempty
remainder. -/
def isValidUrl (s : String) : Bool :=
  match splitScheme s.data with
  | some p => !p.1.isEmpty && p.1.all Char.isAlpha && !p.2.isEmpty
  | none => false

def titleIssues (v : Option String) : List ZodIssue :=
  match v with
  | none => [⟨"invalid_type", "Required", "title"⟩]
  | some s =>
    (if s.length < 1 then [⟨"too_small", "Document title is required", "title"⟩] else [])
    ++ (if 500 < s.length then [⟨"too_big", "Document title is too long", "title"⟩] else [])

def linkIssues (v : Option String) : List ZodIssue :=
  match v with
  | none => [⟨"invalid_type", "Required", "link"⟩]
  | some s =>
    (if isValidUrl s then [] else [⟨"invalid_string", "Invalid document link URL", "link"⟩])
    ++ (if s.length < 1 then [⟨"too_small", "Document link is required", "link"⟩] else [])

/-- `z.string().max(255).optional().or(z.literal(''))`: a union, whose failure
carries the `invalid_union` code. -/
def uploadedByIssues (v : Option String) : List ZodIssue :=
  match v with
  | none => []
  | some s => if s.length ≤ 255 then [] else [⟨"invalid_union", "Invalid input", "uploadedBy"⟩]

/-- `createDocumentSchema.parse`. -/
def parseDocument (r : RawDocument) : Except (List ZodIssue) ValidDocument :=
  match r.title, r.link with
  | some t, some l =>
    let issues := titleIssues (some t) ++ linkIssues (some l) ++ uploadedByIssues r.uploadedBy
    if issues.isEmpty then .ok ⟨t, l, r.uploadedBy⟩
    else .error issues
  | _, _ => .error (titleIssues r.title ++ linkIssues r.link ++ uploadedByIssues r.uploadedBy)

/-- The `documents.forEach` loop of `bulkUploadDocuments`: validation only —
unlike the contact pipeline there is no in-batch deduplication of any kind. -/
def validateDocsAux (rows : List RawDocument) (idx : Nat)
    (vds : List ValidDocument) (errs : List ErrEntry) :
    List ValidDocument × List ErrEntry :=
  match rows with
  | [] => (vds, errs)
  | r :: rest =>
    match parseDocument r with
    | .error issues =>
      validateDocsAux rest (idx + 1) vds (errs ++ [errEntryOfIssues (idx + 1) issues])
    | .ok v => validateDocsAux rest (idx + 1) (vds ++ [v]) errs

def validateDocs (rows : List RawDocument) : List ValidDocument × List ErrEntry :=
  validateDocsAux rows 0 [] []

/-- A row of the documents table; the table has no natural-key uniqueness
constraint (identity is a generated id). -/
structure DocData where
  title : String
  link : String
  uploadedBy : Option String
deriving Repr, DecidableEq

def docToData (d : ValidDocument) : DocData :=
  ⟨d.title, d.link, orNull d.uploadedBy⟩

abbrev DocStore := List DocData

/-- Row attributed to an individual `document.create` failure; same
reference-equality behaviour as `attributedRow` (the `findIndex` matches on
`title` and `link`, the `indexOf` of the freshly parsed object yields `-1`). -/
def docAttributedRow (vds : List ValidDocument) (d : DocData) (fallback : Nat) : Int :=
  if vds.any (fun v => v.title = d.title && v.link = d.link) then (-1 : Int) + 1
  else (fallback : Int) + 1

@[ext]
structure DocLoopState where
  store : DocStore
  created : Nat
  errors : List ErrEntry
  threw : Bool
  txAttempts : Nat
deriving Repr, DecidableEq

def toDocChunksFuel : Nat → List DocData → List (List DocData)
  | _, [] => []
  | 0, _ :: _ => []
  | fuel + 1, d :: ds => (d :: ds).take chunkSize :: toDocChunksFuel fuel ((d :: ds).drop chunkSize)

def toDocChunks (l : List DocData) : List (List DocData) := toDocChunksFuel l.length l

/-- The chunk loop of `bulkUploadDocuments`: each chunk is one transaction of
`document.create` calls; the loop has no `catch` of its own, so the first
failing transaction escapes to the outer fallback. -/
def docChunkLoop (env : DbEnv) :
    List (List DocData) → Nat → DocLoopState → DocLoopState
  | [], _, st => st
  | chunk :: rest, k, st =>
    match env.tx k with
    | .ok =>
      docChunkLoop env rest (k + 1)
        { st with store := st.store ++ chunk,
                  created := st.created + chunk.length,
                  txAttempts := st.txAttempts + 1 }
    | .fail _ => { st with threw := true, txAttempts := st.txAttempts + 1 }

/-- One `document.create` of the outer fallback loop. -/
def docFallbackRecord (env : DbEnv) (vds : List ValidDocument) (i : Nat)
    (d : DocData) (st : DocLoopState) : DocLoopState :=
  match env.up i with
  | none => { st with store := st.store ++ [d], created := st.created + 1 }
  | some e =>
    { st with errors := st.errors ++
        [⟨docAttributedRow vds d i, sanitizeMessage e.message, "insert_error", none⟩] }

/-- The outer `catch` fallback of `bulkUploadDocuments`: re-create every record
of `dataToInsert` individually, starting from whatever the chunk loop left in
the store. -/
def docFallbackLoop (env : DbEnv) (vds : List ValidDocument) :
    List DocData → Nat → DocLoopState → DocLoopState
  | [], _, st => st
  | d :: ds, i, st => docFallbackLoop env vds ds (i + 1) (docFallbackRecord env vds i d st)

structure DocOutcome where
  created : Nat
  errors : List ErrEntry
  report : Report
  store : DocStore
  txAttempts : Nat
deriving Repr, DecidableEq

/-- `bulkUploadDocuments(documents, replaceAll)` under environment `env`. -/
def bulkUploadDocuments (env : DbEnv) (store0 : DocStore) (docs : List RawDocument)
    (replaceAll : Bool) : DocOutcome :=
  let store1 := if replaceAll then [] else store0
  let vres := validateDocs docs
  let validDocuments := vres.1
  let errors0 := vres.2
  let ebt := histByType errors0
  let ebf := histByField errors0
  let report0 : Report :=
    ⟨docs.length, 0, errors0.length, ebt, ebf, none, none, none, none, none⟩
  if validDocuments.isEmpty then
    ⟨0, errors0, report0, store1, 0⟩
  else
    let dataToInsert := validDocuments.map docToData
    let fallback (stStart : DocStore) (txA : Nat) : DocOutcome :=
      let st := docFallbackLoop env validDocuments dataToInsert 0
        ⟨stStart, 0, errors0, false, txA⟩
      ⟨st.created, st.errors,
        { report0 with created := st.created, failed := st.errors.length,
                       errorsByType := histByType st.errors,
                       errorsByField := histByField st.errors },
        st.store, st.txAttempts⟩
    if replaceAll then
      match env.createMany with
      | .ok =>
        ⟨dataToInsert.length, errors0,
          { report0 with created := dataToInsert.length },
          store1 ++ dataToInsert, 0⟩
      | .fail _ => fallback store1 0
    else
      let st := docChunkLoop env (toDocChunks dataToInsert) 0 ⟨store1, 0, errors0, false, 0⟩
      if st.threw then fallback st.store st.txAttempts
      else
        ⟨st.created, st.errors, { report0 with created := st.created },
          st.store, st.txAttempts⟩

/-! ## File normalization (`csvParser.ts`) -/

/-- A raw spreadsheet/CSV cell. -/
inductive CellValue where
  | str (s : String)
  | num (n : Int)
  | null
deriving Repr, DecidableEq

/-- A raw parsed row: column name to cell value, in column order. -/
abbrev RawRecord := List (String × CellValue)

def stripSpaces (s : String) : String :=
  String.mk (s.data.filter (fun c => !isJsSpace c))

/-- The synonym table of `normalizeColumnName`. -/
def columnMap : List (String × String) :=
  [("sno", "sno"), ("serialnumber", "sno"), ("serial_number", "sno"),
   ("srno", "sno"), ("sr_no", "sno"),
   ("name", "name"), ("names", "name"), ("fullname", "name"),
   ("full_name", "name"), ("contactname", "name"), ("contact_name", "name"),
   ("phone", "phone"), ("phonenumber", "phone"), ("phone_number", "phone"),
   ("mobile", "phone"), ("mobilenumber", "phone"), ("mobile_number", "phone"),
   ("contact", "phone"), ("contactnumber", "phone"), ("contact_number", "phone"),
   ("tel", "phone"), ("telephone", "phone"),
   ("designation", "designation"), ("designations", "designation"),
   ("title", "designation"), ("position", "designation"),
   ("jobtitle", "designation"), ("job_title", "designation"),
   ("bloodgroup", "bloodGroup"), ("blood_group", "bloodGroup"),
   ("bloodgroups", "bloodGroup"), ("blood_groups", "bloodGroup"),
   ("bg", "bloodGroup"), ("bloodtype", "bloodGroup"), ("blood_type", "bloodGroup"),
   ("lobby", "lobby"), ("lobbies", "lobby"), ("workingdivision", "lobby"),
   ("working_division", "lobby"), ("division", "lobby"), ("divisions", "lobby"),
   ("department", "lobby"), ("departments", "lobby"), ("dept", "lobby")]

/-- `normalizeColumnName`: trim, lowercase, remove whitespace, then the synonym
table (unknown names pass through). -/
def normalizeColumnName (s : String) : String :=
  if s = "" then ""
  else
    let normalized := stripSpaces (jsToLower (jsTrim s))
    match List.lookup normalized columnMap with
    | some v => v
    | none => normalized

/-- `normalizePhoneNumber`: numbers are rounded and stringified (cell numbers
are modelled as integers, on which `Math.round` is the identity), strings are
trimmed; a leading `+` survives, every other non-digit character is stripped. -/
def normalizePhoneNumber (v : CellValue) : String :=
  let phoneStr : Option String :=
    match v with
    | .null => none
    | .num n => some (toString n)
    | .str s => if s = "" then none else some (jsTrim s)
  match phoneStr with
  | none => ""
  | some t =>
    if t = "" then ""
    else if t.data.head? = some '+' then
      "+" ++ String.mk (t.data.tail.filter Char.isDigit)
    else String.mk (t.data.filter Char.isDigit)

/-- JS object property assignment `normalized[key] = value`. -/
def setField (rec : List (String × String)) (k v : String) : List (String × String) :=
  if rec.any (fun p => p.1 = k) then
    rec.map (fun p => if p.1 = k then (k, v) else p)
  else rec ++ [(k, v)]

/-- Conversion of a non-phone cell to a field value: null/undefined become
`''`, numbers are stringified, strings are trimmed. -/
def cellToFieldValue (v : CellValue) : String :=
  match v with
  | .null => ""
  | .num n => toString n
  | .str s => jsTrim s

/-- The per-column body of the normalization loop of `parseCSV`; the `Bool`
component is the `hasRequiredFields` flag. -/
def normalizeEntry (acc : List (String × String) × Bool) (kv : String × CellValue) :
    List (String × String) × Bool :=
  let key := kv.1
  if key = "" then acc
  else
    let nk := normalizeColumnName key
    if nk = "sno" then acc
    else if nk = "phone" then
      let np := normalizePhoneNumber kv.2
      if np ≠ "" then (setField acc.1 nk np, true) else acc
    else
      let fv := cellToFieldValue kv.2
      if nk = "name" then
        if fv ≠ "" then (setField acc.1 nk fv, true) else acc
      else if fv ≠ "" then (setField acc.1 nk fv, acc.2)
      else acc

/-- Normalization of one raw row; `none` means the row is dropped (empty row,
or `hasRequiredFields` stayed false). -/
def normalizeRecord (rec : RawRecord) : Option (List (String × String)) :=
  if rec.isEmpty then none
  else
    let p := rec.foldl normalizeEntry ([], false)
    if p.2 then some p.1 else none

/-- The normalized output of `parseCSV` handed to validation. -/
def normalizeRecords (recs : List RawRecord) : List (List (String × String)) :=
  recs.filterMap normalizeRecord

/-! ## Controller entry points (`contact.controller.ts`) -/

structure AppError where
  message : String
  statusCode : Nat
  code : Option String
deriving Repr, DecidableEq

/-- The request body as seen by the controllers: absent/falsy, a truthy
non-array value, or an array of raw rows. -/
inductive Body where
  | missing
  | scalar
  | arr (xs : List RawContact)
deriving Repr

/-- The precondition checks of `bulkCreate` (POST /api/contacts/bulk). -/
def bulkCreateValidate (b : Body) : Except AppError (List RawContact) :=
  match b with
  | .missing => .error ⟨"Request body is required", 400, some "MISSING_BODY"⟩
  | .scalar => .error ⟨"Request body must be an array of contacts", 400, some "INVALID_FORMAT"⟩
  | .arr xs =>
    if xs.length = 0 then .error ⟨"Contacts array cannot be empty", 400, some "EMPTY_ARRAY"⟩
    else if 1000 < xs.length then
      .error ⟨"Maximum 1000 contacts allowed per request", 400, some "TOO_MANY_CONTACTS"⟩
    else .ok xs

/-- The precondition check of `bulkUpload` (POST /api/contacts/bulk-upload):
only `Array.isArray`; `AppError` is constructed with its default status 500. -/
def bulkUploadValidate (b : Body) : Except AppError (List RawContact) :=
  match b with
  | .arr xs => .ok xs
  | _ => .error ⟨"Invalid CSV data format", 500, none⟩

/-! ## Lemmas on validation and deduplication -/

/-- All rows of `rows` parse successfully, to `vcs` in order. -/
def parsesTo (rows : List RawContact) (vcs : List ValidContact) : Prop :=
  rows.map parseContact = vcs.map (fun v => (Except.ok v : Except (List ZodIssue) ValidContact))

theorem validateDedupAux_vcs_mono (rows : List RawContact) :
    ∀ idx phones vcs errs,
      ∃ t, (validateDedupAux rows idx phones vcs errs).1 = vcs ++ t := by
  induction rows with
  | nil => intro idx phones vcs errs; exact ⟨[], by simp [validateDedupAux]⟩
  | cons r rest ih =>
    intro idx phones vcs errs
    cases hp : parseContact r with
    | error issues =>
      simp only [validateDedupAux, hp]
      exact ih (idx + 1) phones vcs _
    | ok v =>
      by_cases hc : phones.contains v.phone = true
      · simp only [validateDedupAux, hp, if_pos hc]
        exact ih (idx + 1) phones vcs _
      · simp only [validateDedupAux, hp, if_neg hc]
        obtain ⟨t, ht⟩ := ih (idx + 1) (phones ++ [v.phone]) (vcs ++ [v]) errs
        exact ⟨[v] ++ t, by simp [ht]⟩

theorem validateDedupAux_errs_mono (rows : List RawContact) :
    ∀ idx phones vcs errs,
      ∃ t, (validateDedupAux rows idx phones vcs errs).2 = errs ++ t := by
  induction rows with
  | nil => intro idx phones vcs errs; exact ⟨[], by simp [validateDedupAux]⟩
  | cons r rest ih =>
    intro idx phones vcs errs
    cases hp : parseContact r with
    | error issues =>
      simp only [validateDedupAux, hp]
      obtain ⟨t, ht⟩ := ih (idx + 1) phones vcs (errs ++ [errEntryOfIssues (idx + 1) issues])
      exact ⟨[errEntryOfIssues (idx + 1) issues] ++ t, by simp [ht]⟩
    | ok v =>
      by_cases hc : phones.contains v.phone = true
      · simp only [validateDedupAux, hp, if_pos hc]
        obtain ⟨t, ht⟩ := ih (idx + 1) phones vcs (errs ++ [dupEntry (idx + 1) v.phone])
        exact ⟨[dupEntry (idx + 1) v.phone] ++ t, by simp [ht]⟩
      · simp only [validateDedupAux, hp, if_neg hc]
        exact ih (idx + 1) (phones ++ [v.phone]) (vcs ++ [v]) errs

/-- Every row contributes exactly one element, to the valid list or to the
error list. -/
theorem validateDedupAux_length (rows : List RawContact) :
    ∀ idx phones vcs errs,
      (validateDedupAux rows idx phones vcs errs).1.length
        + (validateDedupAux rows idx phones vcs errs).2.length
      = vcs.length + errs.length + rows.length := by
  induction rows with
  | nil => intro idx phones vcs errs; simp [validateDedupAux]
  | cons r rest ih =>
    intro idx phones vcs errs
    cases hp : parseContact r with
    | error issues =>
      simp only [validateDedupAux, hp]
      rw [ih (idx + 1) phones vcs (errs ++ [errEntryOfIssues (idx + 1) issues])]
      simp only [List.length_append, List.length_cons, List.length_nil]
      omega
    | ok v =>
      by_cases hc : phones.contains v.phone = true
      · simp only [validateDedupAux, hp, if_pos hc]
        rw [ih (idx + 1) phones vcs (errs ++ [dupEntry (idx + 1) v.phone])]
        simp only [List.length_append, List.length_cons, List.length_nil]
        omega
      · simp only [validateDedupAux, hp, if_neg hc]
        rw [ih (idx + 1) (phones ++ [v.phone]) (vcs ++ [v]) errs]
        simp only [List.length_append, List.length_cons, List.length_nil]
        omega

theorem validateDedup_length (rows : List RawContact) :
    (validateDedup rows).1.length + (validateDedup rows).2.length = rows.length := by
  simpa using validateDedupAux_length rows 0 [] [] []

/-- The `phoneSet` accumulator is exactly the list of phones of the kept rows,
so the kept rows always carry pairwise distinct phones. -/
theorem validateDedupAux_nodup (rows : List RawContact) :
    ∀ idx phones vcs errs,
      phones = vcs.map (fun v => v.phone) → phones.Nodup →
      ((validateDedupAux rows idx phones vcs errs).1.map (fun v => v.phone)).Nodup := by
  induction rows with
  | nil => intro idx phones vcs errs hinv hnd; simpa [validateDedupAux, hinv] using hnd
  | cons r rest ih =>
    intro idx phones vcs errs hinv hnd
    cases hp : parseContact r with
    | error issues =>
      simp only [validateDedupAux, hp]
      exact ih (idx + 1) phones vcs _ hinv hnd
    | ok v =>
      by_cases hc : phones.contains v.phone = true
      · simp only [validateDedupAux, hp, if_pos hc]
        exact ih (idx + 1) phones vcs _ hinv hnd
      · simp only [validateDedupAux, hp, if_neg hc]
        refine ih (idx + 1) (phones ++ [v.phone]) (vcs ++ [v]) errs (by simp [hinv]) ?_
        have hv : v.phone ∉ phones := by
          intro hmem
          exact hc (List.elem_eq_true_of_mem hmem)
        simp [List.nodup_append, hnd, hv]

theorem validateDedup_nodup (rows : List RawContact) :
    ((validateDedup rows).1.map (fun v => v.phone)).Nodup :=
  validateDedupAux_nodup rows 0 [] [] [] (by simp) (by simp)

/-- On an all-valid batch with pairwise distinct phones, validation keeps every
row in order and reports no error. -/
theorem validateDedupAux_all_valid (rows : List RawContact) :
    ∀ (vcs : List ValidContact) idx phones acc errs,
      parsesTo rows vcs →
      ((vcs.map (fun v => v.phone)).Nodup) →
      (∀ v ∈ vcs, v.phone ∉ phones) →
      validateDedupAux rows idx phones acc errs = (acc ++ vcs, errs) := by
  induction rows with
  | nil =>
    intro vcs idx phones acc errs hp _ _
    have : vcs = [] := by
      cases vcs with
      | nil => rfl
      | cons v t => simp [parsesTo] at hp
    subst this
    simp [validateDedupAux]
  | cons r rest ih =>
    intro vcs idx phones acc errs hp hnd hdisj
    cases vcs with
    | nil => simp [parsesTo] at hp
    | cons v vt =>
      simp only [parsesTo, List.map_cons, List.cons.injEq] at hp
      obtain ⟨hr, hrest⟩ := hp
      have hvnot : v.phone ∉ phones := hdisj v (by simp)
      have hc : ¬ (phones.contains v.phone = true) := by
        intro h
        exact hvnot (List.mem_of_elem_eq_true h)
      simp only [validateDedupAux, hr, if_neg hc]
      have hnd' : ((vt.map (fun v => v.phone)).Nodup) := by
        simpa using hnd.of_cons
      have hdisj' : ∀ w ∈ vt, w.phone ∉ phones ++ [v.phone] := by
        intro w hw
        simp only [List.mem_append, List.mem_singleton]
        rintro (h | h)
        · exact hdisj w (by simp [hw]) h
        · have hne : ∀ x ∈ vt, ¬ x.phone = v.phone := by
            have h2 := hnd
            simp only [List.map_cons, List.nodup_cons, List.mem_map] at h2
            intro x hx hxe
            exact h2.1 ⟨x, hx, hxe⟩
          exact hne w hw h
      rw [ih vt (idx + 1) (phones ++ [v.phone]) (acc ++ [v]) errs hrest hnd' hdisj']
      simp

theorem validateDedup_all_valid (rows : List RawContact) (vcs : List ValidContact)
    (hp : parsesTo rows vcs) (hnd : (vcs.map (fun v => v.phone)).Nodup) :
    validateDedup rows = (vcs, []) := by
  simpa using validateDedupAux_all_valid rows vcs 0 [] [] [] hp hnd (by simp)

theorem validateDedupAux_vcs_mem (rows : List RawContact) (idx : Nat)
    (phones : List String) (vcs : List ValidContact) (errs : List ErrEntry)
    (v : ValidContact) (hv : v ∈ vcs) :
    v ∈ (validateDedupAux rows idx phones vcs errs).1 := by
  obtain ⟨t, ht⟩ := validateDedupAux_vcs_mono rows idx phones vcs errs
  rw [ht]
  exact List.mem_append_left t hv

theorem validateDedupAux_errs_mem (rows : List RawContact) (idx : Nat)
    (phones : List String) (vcs : List ValidContact) (errs : List ErrEntry)
    (e : ErrEntry) (he : e ∈ errs) :
    e ∈ (validateDedupAux rows idx phones vcs errs).2 := by
  obtain ⟨t, ht⟩ := validateDedupAux_errs_mono rows idx phones vcs errs
  rw [ht]
  exact List.mem_append_left t he

/-- A valid row whose phone is new (both to the accumulator and to every
earlier valid row) is kept. -/
theorem validateDedupAux_kept (rows : List RawContact) :
    ∀ idx phones vcs errs i, ∀ hi : i < rows.length, ∀ v : ValidContact,
      parseContact rows[i] = .ok v →
      v.phone ∉ phones →
      (∀ j, j < i → ∀ w, (hj : j < rows.length) → parseContact rows[j] = .ok w → w.phone ≠ v.phone) →
      v ∈ (validateDedupAux rows idx phones vcs errs).1 := by
  induction rows with
  | nil => intro idx phones vcs errs i hi; simp at hi
  | cons r rest ih =>
    intro idx phones vcs errs i hi v hv hnotin hfirst
    cases i with
    | zero =>
      simp only [List.getElem_cons_zero] at hv
      have hc : ¬ (phones.contains v.phone = true) := by
        intro h
        exact hnotin (List.mem_of_elem_eq_true h)
      simp only [validateDedupAux, hv, if_neg hc]
      exact validateDedupAux_vcs_mem rest (idx + 1) (phones ++ [v.phone]) (vcs ++ [v]) errs v
        (by simp)
    | succ j =>
      simp only [List.getElem_cons_succ] at hv
      have hj : j < rest.length := by simpa using hi
      cases hp : parseContact r with
      | error issues =>
        simp only [validateDedupAux, hp]
        refine ih (idx + 1) phones vcs _ j hj v hv hnotin ?_
        intro j2 hj2 w hj2len hw
        exact hfirst (j2 + 1) (by omega) w (by simpa using hj2len) (by simpa using hw)
      | ok w =>
        by_cases hc : phones.contains w.phone = true
        · simp only [validateDedupAux, hp, if_pos hc]
          refine ih (idx + 1) phones vcs _ j hj v hv hnotin ?_
          intro j2 hj2 w2 hj2len hw2
          exact hfirst (j2 + 1) (by omega) w2 (by simpa using hj2len) (by simpa using hw2)
        · simp only [validateDedupAux, hp, if_neg hc]
          refine ih (idx + 1) (phones ++ [w.phone]) (vcs ++ [w]) errs j hj v hv ?_ ?_
          · simp only [List.mem_append, List.mem_singleton]
            rintro (h | h)
            · exact hnotin h
            · exact hfirst 0 (by omega) w (by simp) (by simpa using hp) h.symm
          · intro j2 hj2 w2 hj2len hw2
            exact hfirst (j2 + 1) (by omega) w2 (by simpa using hj2len) (by simpa using hw2)

/-- A valid row whose phone already occurred — in the accumulator or as an
earlier valid row — is rejected with the duplicate entry for its 1-based row. -/
theorem validateDedupAux_dup (rows : List RawContact) :
    ∀ idx phones vcs errs i, ∀ hi : i < rows.length, ∀ v : ValidContact,
      parseContact rows[i] = .ok v →
      (v.phone ∈ phones ∨
        ∃ j, j < i ∧ ∃ hj : j < rows.length, ∃ w, parseContact rows[j] = .ok w ∧ w.phone = v.phone) →
      dupEntry (idx + i + 1) v.phone ∈ (validateDedupAux rows idx phones vcs errs).2 := by
  induction rows with
  | nil => intro idx phones vcs errs i hi; simp at hi
  | cons r rest ih =>
    intro idx phones vcs errs i hi v hv hdup
    cases i with
    | zero =>
      simp only [List.getElem_cons_zero] at hv
      have hmem : v.phone ∈ phones := by
        rcases hdup with h | ⟨j, hj0, _, _, _, _⟩
        · exact h
        · omega
      have hc : phones.contains v.phone = true := List.elem_eq_true_of_mem hmem
      simp only [validateDedupAux, hv, if_pos hc]
      exact validateDedupAux_errs_mem rest (idx + 1) phones vcs _ (dupEntry (idx + 0 + 1) v.phone)
        (by simp)
    | succ j =>
      simp only [List.getElem_cons_succ] at hv
      have hj : j < rest.length := by simpa using hi
      have hrow : idx + (j + 1) + 1 = (idx + 1) + j + 1 := by omega
      cases hp : parseContact r with
      | error issues =>
        simp only [validateDedupAux, hp]
        rw [hrow]
        refine ih (idx + 1) phones vcs _ j hj v hv ?_
        rcases hdup with h | ⟨j2, hj2, hj2len, w, hw, hwp⟩
        · exact Or.inl h
        · cases j2 with
          | zero => rw [List.getElem_cons_zero] at hw; rw [hp] at hw; cases hw
          | succ j3 =>
            refine Or.inr ⟨j3, by omega, by simpa using hj2len, w, ?_, hwp⟩
            simpa using hw
      | ok w =>
        by_cases hc : phones.contains w.phone = true
        · simp only [validateDedupAux, hp, if_pos hc]
          rw [hrow]
          refine ih (idx + 1) phones vcs _ j hj v hv ?_
          rcases hdup with h | ⟨j2, hj2, hj2len, w2, hw2, hwp2⟩
          · exact Or.inl h
          · cases j2 with
            | zero =>
              rw [List.getElem_cons_zero, hp] at hw2
              cases hw2
              exact Or.inl (by rw [← hwp2]; exact List.mem_of_elem_eq_true hc)
            | succ j3 =>
              refine Or.inr ⟨j3, by omega, by simpa using hj2len, w2, ?_, hwp2⟩
              simpa using hw2
        · simp only [validateDedupAux, hp, if_neg hc]
          rw [hrow]
          refine ih (idx + 1) (phones ++ [w.phone]) (vcs ++ [w]) errs j hj v hv ?_
          rcases hdup with h | ⟨j2, hj2, hj2len, w2, hw2, hwp2⟩
          · exact Or.inl (List.mem_append_left _ h)
          · cases j2 with
            | zero =>
              rw [List.getElem_cons_zero, hp] at hw2
              cases hw2
              exact Or.inl (by rw [← hwp2]; simp)
            | succ j3 =>
              refine Or.inr ⟨j3, by omega, by simpa using hj2len, w2, ?_, hwp2⟩
              simpa using hw2

/-- A row that fails validation is reported with its Zod entry for its 1-based
row (and in particular never reaches deduplication). -/
theorem validateDedupAux_invalid (rows : List RawContact) :
    ∀ idx phones vcs errs i, ∀ hi : i < rows.length, ∀ issues,
      parseContact rows[i] = .error issues →
      errEntryOfIssues (idx + i + 1) issues ∈ (validateDedupAux rows idx phones vcs errs).2 := by
  induction rows with
  | nil => intro idx phones vcs errs i hi; simp at hi
  | cons r rest ih =>
    intro idx phones vcs errs i hi issues hv
    cases i with
    | zero =>
      simp only [List.getElem_cons_zero] at hv
      simp only [validateDedupAux, hv]
      exact validateDedupAux_errs_mem rest (idx + 1) phones vcs _
        (errEntryOfIssues (idx + 0 + 1) issues) (by simp)
    | succ j =>
      simp only [List.getElem_cons_succ] at hv
      have hj : j < rest.length := by simpa using hi
      have hrow : idx + (j + 1) + 1 = (idx + 1) + j + 1 := by omega
      cases hp : parseContact r with
      | error issues2 =>
        simp only [validateDedupAux, hp]
        rw [hrow]
        exact ih (idx + 1) phones vcs _ j hj issues hv
      | ok w =>
        by_cases hc : phones.contains w.phone = true
        · simp only [validateDedupAux, hp, if_pos hc]
          rw [hrow]
          exact ih (idx + 1) phones vcs _ j hj issues hv
        · simp only [validateDedupAux, hp, if_neg hc]
          rw [hrow]
          exact ih (idx + 1) (phones ++ [w.phone]) (vcs ++ [w]) errs j hj issues hv

/-- Every issue a failing `csvContactSchema.parse` can produce carries one of
the Zod codes; in particular the reported entry type is a validation code,
never `duplicate`. -/
theorem parseContact_error_head (r : RawContact) (issues : List ZodIssue)
    (h : parseContact r = .error issues) :
    ∃ i, issues.head? = some i ∧
      (i.code = "invalid_type" ∨ i.code = "too_small" ∨ i.code = "invalid_string") := by
  cases hn : r.name with
  | none =>
    cases hph : r.phone with
    | none =>
      simp only [parseContact, hn, hph, Except.error.injEq] at h
      exact ⟨⟨"invalid_type", "Required", "name"⟩, by rw [← h]; rfl, Or.inl rfl⟩
    | some p =>
      simp only [parseContact, hn, hph, Except.error.injEq] at h
      exact ⟨⟨"invalid_type", "Required", "name"⟩, by rw [← h]; rfl, Or.inl rfl⟩
  | some n =>
    cases hph : r.phone with
    | none =>
      simp only [parseContact, hn, hph, Except.error.injEq] at h
      by_cases hlen : n.length < 1
      · refine ⟨⟨"too_small", "Name is required", "name"⟩, ?_, Or.inr (Or.inl rfl)⟩
        rw [← h]
        simp [nameIssues, hlen]
      · refine ⟨⟨"invalid_type", "Required", "phone"⟩, ?_, Or.inl rfl⟩
        rw [← h]
        simp [nameIssues, hlen, phoneIssuesCsv]
    | some p =>
      simp only [parseContact, hn, hph] at h
      by_cases hemp : (nameIssues (some n) ++ phoneIssuesCsv (some p)).isEmpty = true
      · rw [if_pos hemp] at h
        cases h
      · rw [if_neg hemp] at h
        simp only [Except.error.injEq] at h
        by_cases hlen : n.length < 1
        · refine ⟨⟨"too_small", "Name is required", "name"⟩, ?_, Or.inr (Or.inl rfl)⟩
          rw [← h]
          simp [nameIssues, hlen]
        · by_cases hp10 : p.length < 10
          · refine ⟨⟨"too_small", "Phone number must be at least 10 digits", "phone"⟩, ?_,
              Or.inr (Or.inl rfl)⟩
            rw [← h]
            simp [nameIssues, hlen, phoneIssuesCsv, hp10]
          · by_cases hreg : phoneRegexOk p = true
            · exact absurd (by simp [nameIssues, hlen, phoneIssuesCsv, hp10, hreg]) hemp
            · refine ⟨⟨"invalid_string", "Invalid phone number format", "phone"⟩, ?_,
                Or.inr (Or.inr rfl)⟩
              rw [← h]
              simp [nameIssues, hlen, phoneIssuesCsv, hp10, hreg]

theorem errEntryOfIssues_row (row : Nat) (issues : List ZodIssue) :
    (errEntryOfIssues row issues).row = (row : Int) := by
  unfold errEntryOfIssues
  cases issues.head? <;> simp

theorem errEntryOfIssues_type_of_head (row : Nat) (issues : List ZodIssue) (i : ZodIssue)
    (h : issues.head? = some i) (hc : ¬ i.code = "") :
    (errEntryOfIssues row issues).type = i.code := by
  unfold errEntryOfIssues
  rw [h]
  simp [hc]

/-! ## Lemmas on the store and `upsert` -/

/-- The phones of a store are untouched by an upsert of a present phone and
extended otherwise. -/
theorem upsert_map_phone (store : Store) (d : ContactData) :
    (upsert store d).map (fun r => r.phone) =
      if store.any (fun r => r.phone = d.phone) then store.map (fun r => r.phone)
      else store.map (fun r => r.phone) ++ [d.phone] := by
  unfold upsert
  split
  · rw [List.map_map]
    refine List.map_congr_left ?_
    intro r _
    by_cases h : r.phone = d.phone <;> simp [h]
  · simp

theorem upsert_nodup (store : Store) (d : ContactData)
    (h : (store.map (fun r => r.phone)).Nodup) :
    ((upsert store d).map (fun r => r.phone)).Nodup := by
  rw [upsert_map_phone]
  split
  · exact h
  · rename_i hn
    have : d.phone ∉ store.map (fun r => r.phone) := by
      intro hmem
      rw [List.mem_map] at hmem
      obtain ⟨r, hr, hrp⟩ := hmem
      exact hn (by simp only [List.any_eq_true, decide_eq_true_eq]; exact ⟨r, hr, hrp⟩)
    simp [List.nodup_append, h, this]

theorem mem_upsert_self (store : Store) (d : ContactData) : d ∈ upsert store d := by
  unfold upsert
  split
  · rename_i h
    simp only [List.any_eq_true, decide_eq_true_eq] at h
    obtain ⟨r, hr, hrp⟩ := h
    rw [List.mem_map]
    exact ⟨r, hr, by simp [hrp]⟩
  · simp

theorem mem_upsert_of_ne (store : Store) (d r : ContactData)
    (hr : r ∈ store) (hne : ¬ r.phone = d.phone) : r ∈ upsert store d := by
  unfold upsert
  split
  · rw [List.mem_map]
    exact ⟨r, hr, by simp [hne]⟩
  · exact List.mem_append_left _ hr

/-- Upserting a record already present in a phone-unique store is a no-op. -/
theorem upsert_of_mem (store : Store) (d : ContactData)
    (hmem : d ∈ store) (hnd : (store.map (fun r => r.phone)).Nodup) :
    upsert store d = store := by
  unfold upsert
  rw [if_pos (by simp only [List.any_eq_true, decide_eq_true_eq]; exact ⟨d, hmem, rfl⟩)]
  have hinj := List.inj_on_of_nodup_map hnd
  conv_rhs => rw [← List.map_id store]
  refine List.map_congr_left ?_
  intro r hr
  by_cases h : r.phone = d.phone
  · simp only [h, if_true, id]
    exact (hinj hr hmem h).symm
  · simp [h]

theorem foldl_upsert_nodup (ds : List ContactData) :
    ∀ store : Store, (store.map (fun r => r.phone)).Nodup →
      (((ds.foldl upsert store).map (fun r => r.phone))).Nodup := by
  induction ds with
  | nil => intro store h; simpa using h
  | cons d t ih => intro store h; exact ih (upsert store d) (upsert_nodup store d h)

theorem foldl_upsert_mem_of_mem (ds : List ContactData) :
    ∀ store : Store, ∀ r ∈ store, (∀ d ∈ ds, ¬ d.phone = r.phone) →
      r ∈ ds.foldl upsert store := by
  induction ds with
  | nil => intro store r hr _; simpa using hr
  | cons d t ih =>
    intro store r hr hne
    refine ih (upsert store d) r ?_ ?_
    · exact mem_upsert_of_ne store d r hr (fun h => hne d (by simp) (by rw [h]))
    · intro d2 hd2
      exact hne d2 (by simp [hd2])

/-- After one pass of upserts over records with pairwise distinct phones,
every record of the pass is in the store. -/
theorem foldl_upsert_mem (ds : List ContactData) :
    ∀ store : Store, (ds.map (fun r => r.phone)).Nodup →
      ∀ d ∈ ds, d ∈ ds.foldl upsert store := by
  induction ds with
  | nil => intro store _ d hd; simp at hd
  | cons d0 t ih =>
    intro store hnd d hd
    rw [List.map_cons, List.nodup_cons] at hnd
    rcases List.mem_cons.mp hd with h | h
    · subst h
      rw [List.foldl_cons]
      refine foldl_upsert_mem_of_mem t (upsert store d) d (mem_upsert_self store d) ?_
      intro d2 hd2 hph
      exact hnd.1 (by rw [← hph]; exact List.mem_map_of_mem _ hd2)
    · exact ih (upsert store d0) hnd.2 d h

/-- A second pass of the same upserts over a phone-unique store already
containing every record of the pass is the identity. -/
theorem foldl_upsert_idem (ds : List ContactData) :
    ∀ store : Store, (store.map (fun r => r.phone)).Nodup →
      (∀ d ∈ ds, d ∈ store) → ds.foldl upsert store = store := by
  induction ds with
  | nil => intro store _ _; rfl
  | cons d t ih =>
    intro store hnd hall
    rw [List.foldl_cons, upsert_of_mem store d (hall d (by simp)) hnd]
    exact ih store hnd (fun d2 hd2 => hall d2 (by simp [hd2]))

/-- In a phone-unique store, a member record is the unique record carrying its
phone. -/
theorem countP_phone_eq_one (store : Store) (d : ContactData)
    (hmem : d ∈ store) (hnd : (store.map (fun r => r.phone)).Nodup) :
    store.countP (fun r => r.phone = d.phone) = 1 := by
  induction store with
  | nil => simp at hmem
  | cons r t ih =>
    rw [List.map_cons, List.nodup_cons] at hnd
    rcases List.mem_cons.mp hmem with h | h
    · subst h
      rw [List.countP_cons]
      simp only [decide_eq_true_eq]
      have ht : t.countP (fun r => r.phone = d.phone) = 0 := by
        rw [List.countP_eq_zero]
        intro r2 hr2
        simp only [decide_eq_true_eq]
        intro hph
        exact hnd.1 (by rw [← hph]; exact List.mem_map_of_mem _ hr2)
      simp [ht]
    · rw [List.countP_cons]
      have hne : ¬ (r.phone = d.phone) := by
        intro hph
        exact hnd.1 (by rw [hph]; exact List.mem_map_of_mem _ h)
      simp [ih h hnd.2, hne]

/-! ## Lemmas on the chunk partitioning -/

theorem toChunksFuel_flatten : ∀ fuel (ds : List ContactData), ds.length ≤ fuel →
    (toChunksFuel fuel ds).flatten = ds := by
  intro fuel
  induction fuel with
  | zero =>
    intro ds h
    cases ds with
    | nil => rfl
    | cons d t => simp at h
  | succ f ih =>
    intro ds h
    cases ds with
    | nil => rfl
    | cons d t =>
      rw [toChunksFuel, List.flatten_cons,
        ih _ (by rw [List.length_drop]; simp only [List.length_cons, chunkSize] at h ⊢; omega)]
      exact List.take_append_drop chunkSize (d :: t)

theorem toChunks_join (ds : List ContactData) : (toChunks ds).flatten = ds :=
  toChunksFuel_flatten ds.length ds le_rfl

theorem toChunks_ne_nil (ds : List ContactData) (h : ds ≠ []) : toChunks ds ≠ [] := by
  cases ds with
  | nil => exact absurd rfl h
  | cons d t => rw [toChunks, List.length_cons, toChunksFuel]; simp

/-- The concatenation of the first `m` chunks is the first `chunkSize * m`
records. -/
theorem toChunksFuel_take_flatten (m : Nat) :
    ∀ fuel (ds : List ContactData), ds.length ≤ fuel →
      ((toChunksFuel fuel ds).take m).flatten = ds.take (chunkSize * m) := by
  induction m with
  | zero => intro fuel ds h; simp
  | succ m ih =>
    intro fuel ds h
    cases ds with
    | nil => cases fuel <;> simp [toChunksFuel]
    | cons d t =>
      cases fuel with
      | zero => simp at h
      | succ f =>
        rw [toChunksFuel]
        simp only [List.take_succ_cons, List.flatten_cons]
        rw [ih f ((d :: t).drop chunkSize)
          (by rw [List.length_drop]; simp only [List.length_cons, chunkSize] at h ⊢; omega)]
        rw [← List.take_add]
        congr 1
        ring

theorem toChunks_take_join (m : Nat) (ds : List ContactData) :
    ((toChunks ds).take m).flatten = ds.take (chunkSize * m) :=
  toChunksFuel_take_flatten m ds.length ds le_rfl

/-- A record index below the length forces that many chunks to exist. -/
theorem lt_length_toChunksFuel (m : Nat) :
    ∀ fuel (ds : List ContactData), ds.length ≤ fuel → chunkSize * m < ds.length →
      m < (toChunksFuel fuel ds).length := by
  induction m with
  | zero =>
    intro fuel ds h hlt
    cases ds with
    | nil => simp at hlt
    | cons d t =>
      cases fuel with
      | zero => simp at h
      | succ f => rw [toChunksFuel]; simp
  | succ m ih =>
    intro fuel ds h hlt
    cases ds with
    | nil => simp at hlt
    | cons d t =>
      cases fuel with
      | zero => simp at h
      | succ f =>
        rw [toChunksFuel, List.length_cons]
        have hdrop : chunkSize * m < ((d :: t).drop chunkSize).length := by
          rw [List.length_drop]
          simp only [chunkSize, List.length_cons] at hlt ⊢
          omega
        refine Nat.succ_lt_succ (ih f _ ?_ hdrop)
        rw [List.length_drop]
        simp only [List.length_cons, chunkSize] at h ⊢
        omega

theorem lt_length_toChunks (m : Nat) (ds : List ContactData)
    (h : chunkSize * m < ds.length) : m < (toChunks ds).length :=
  lt_length_toChunksFuel m ds.length ds le_rfl h

/-! ## Executions of the chunk loop -/

/-- When every chunk transaction succeeds, the loop upserts every record,
counts them all as created and touches nothing else. -/
theorem chunkLoop_all_ok (env : DbEnv) (vcs : List ValidContact)
    (chunks : List (List ContactData)) :
    ∀ k i st, (∀ j, env.tx j = TxOutcome.ok) →
      chunkLoop env vcs chunks k i st =
        { st with store := chunks.flatten.foldl upsert st.store,
                  created := st.created + chunks.flatten.length,
                  txAttempts := st.txAttempts + chunks.length } := by
  induction chunks with
  | nil => intro k i st h; simp [chunkLoop]
  | cons c rest ih =>
    intro k i st h
    simp only [chunkLoop, h k]
    rw [ih (k + 1) (i + chunkSize) _ h]
    ext <;> simp [List.foldl_append] <;> omega

/-- When the first `m` chunk transactions succeed and the next fails with a
connection-class error, the loop commits exactly the first `m` chunks, sets the
flag, performs no standalone upsert and attempts no further transaction. -/
theorem chunkLoop_halt (m : Nat) :
    ∀ (env : DbEnv) (vcs : List ValidContact) (chunks : List (List ContactData)) k i st e,
      (∀ j, j < m → env.tx (k + j) = TxOutcome.ok) →
      env.tx (k + m) = TxOutcome.fail e →
      isConnectionError e = true →
      m < chunks.length →
      chunkLoop env vcs chunks k i st =
        { st with store := ((chunks.take m).flatten).foldl upsert st.store,
                  created := st.created + (chunks.take m).flatten.length,
                  connectionLost := true,
                  txAttempts := st.txAttempts + m + 1 } := by
  induction m with
  | zero =>
    intro env vcs chunks k i st e hok hfail hconn hlen
    cases chunks with
    | nil => simp at hlen
    | cons c rest =>
      have h0 : env.tx k = TxOutcome.fail e := by simpa using hfail
      simp only [chunkLoop, h0]
      rw [if_pos hconn]
      ext <;> simp
  | succ m ih =>
    intro env vcs chunks k i st e hok hfail hconn hlen
    cases chunks with
    | nil => simp at hlen
    | cons c rest =>
      have h0 : env.tx k = TxOutcome.ok := by simpa using hok 0 (by omega)
      simp only [chunkLoop, h0]
      rw [ih env vcs rest (k + 1) (i + chunkSize) _ e
        (fun j hj => by
          have h2 := hok (j + 1) (by omega)
          rwa [show k + (j + 1) = k + 1 + j from by omega] at h2)
        (by
          have h2 := hfail
          rwa [show k + (m + 1) = k + 1 + m from by omega] at h2)
        hconn (by simpa using hlen)]
      ext <;> simp [List.foldl_append] <;> omega

/-- `createMany` with `skipDuplicates` over records whose phones are pairwise
distinct and absent from the store inserts them all. -/
theorem createManySkipDup_all (ds : List ContactData) :
    ∀ store : Store, (ds.map (fun r => r.phone)).Nodup →
      (∀ d ∈ ds, d.phone ∉ store.map (fun r => r.phone)) →
      createManySkipDup store ds = (store ++ ds, ds.length) := by
  induction ds with
  | nil => intro store _ _; simp [createManySkipDup]
  | cons d t ih =>
    intro store hnd hdisj
    rw [List.map_cons, List.nodup_cons] at hnd
    have hc : ¬ (store.any (fun r => r.phone = d.phone) = true) := by
      simp only [List.any_eq_true, decide_eq_true_eq]
      rintro ⟨r, hr, hrp⟩
      exact hdisj d (by simp) (by rw [← hrp]; exact List.mem_map_of_mem _ hr)
    have hdisj' : ∀ d2 ∈ t, d2.phone ∉ (store ++ [d]).map (fun r => r.phone) := by
      intro d2 hd2
      rw [List.map_append, List.mem_append]
      rintro (h | h)
      · exact hdisj d2 (by simp [hd2]) h
      · rw [List.map_singleton, List.mem_singleton] at h
        exact hnd.1 (by rw [← h]; exact List.mem_map_of_mem _ hd2)
    simp only [createManySkipDup, if_neg hc]
    rw [ih (store ++ [d]) hnd.2 hdisj']
    simp

/-- A document chunk loop in which every transaction succeeds creates every
record in order. -/
theorem docChunkLoop_all_ok (env : DbEnv) (chunks : List (List DocData)) :
    ∀ k st, (∀ j, env.tx j = TxOutcome.ok) →
      docChunkLoop env chunks k st =
        { st with store := st.store ++ chunks.flatten,
                  created := st.created + chunks.flatten.length,
                  txAttempts := st.txAttempts + chunks.length } := by
  induction chunks with
  | nil => intro k st h; simp [docChunkLoop]
  | cons c rest ih =>
    intro k st h
    simp only [docChunkLoop, h k]
    rw [ih (k + 1) _ h]
    ext <;> simp <;> omega

theorem toDocChunksFuel_flatten : ∀ fuel (ds : List DocData), ds.length ≤ fuel →
    (toDocChunksFuel fuel ds).flatten = ds := by
  intro fuel
  induction fuel with
  | zero =>
    intro ds h
    cases ds with
    | nil => rfl
    | cons d t => simp at h
  | succ f ih =>
    intro ds h
    cases ds with
    | nil => rfl
    | cons d t =>
      rw [toDocChunksFuel, List.flatten_cons,
        ih _ (by rw [List.length_drop]; simp only [List.length_cons, chunkSize] at h ⊢; omega)]
      exact List.take_append_drop chunkSize (d :: t)

theorem toDocChunks_flatten (ds : List DocData) : (toDocChunks ds).flatten = ds :=
  toDocChunksFuel_flatten ds.length ds le_rfl

/-! ## The connection-loss halt path of `bulkUploadContacts` -/

theorem bulk_conn_halt_spec (env : DbEnv) (S : Store) (contacts : List RawContact)
    (k : Nat) (e : DbError)
    (hok : ∀ j, j < k → env.tx j = TxOutcome.ok)
    (hfail : env.tx k = TxOutcome.fail e)
    (hconn : isConnectionError e = true)
    (hlt : chunkSize * k < (validateDedup contacts).1.length) :
    (bulkUploadContacts env S contacts false).created = chunkSize * k ∧
    (bulkUploadContacts env S contacts false).errors =
      (validateDedup contacts).2 ++
        [connSentinel (chunkSize * k) ((validateDedup contacts).1.length - chunkSize * k)] ∧
    (bulkUploadContacts env S contacts false).report.connectionLost = some true ∧
    (bulkUploadContacts env S contacts false).report.partialUpload = some true ∧
    (bulkUploadContacts env S contacts false).report.processedContacts = some (chunkSize * k) ∧
    (bulkUploadContacts env S contacts false).report.notProcessedContacts =
      some ((validateDedup contacts).1.length - chunkSize * k) ∧
    (bulkUploadContacts env S contacts false).report.total = contacts.length ∧
    (bulkUploadContacts env S contacts false).report.created = chunkSize * k ∧
    (bulkUploadContacts env S contacts false).report.failed =
      (validateDedup contacts).2.length + ((validateDedup contacts).1.length - chunkSize * k) ∧
    (bulkUploadContacts env S contacts false).txAttempts = k + 1 ∧
    (bulkUploadContacts env S contacts false).upsertCalls = 0 := by
  have h1 : ¬ ((validateDedup contacts).1 = []) := by
    intro h
    rw [h] at hlt
    simp at hlt
  have hds : ((validateDedup contacts).1.map toData).length = (validateDedup contacts).1.length :=
    List.length_map _ _
  have hchunks : k < (toChunks ((validateDedup contacts).1.map toData)).length := by
    refine lt_length_toChunks k _ ?_
    rw [hds]
    exact hlt
  have hcl := chunkLoop_halt k env (validateDedup contacts).1
    (toChunks ((validateDedup contacts).1.map toData)) 0 0
    ⟨S, 0, (validateDedup contacts).2, false, 0, 0⟩ e
    (fun j hj => by simpa using hok j hj) (by simpa using hfail) hconn hchunks
  have htake : ((toChunks ((validateDedup contacts).1.map toData)).take k).flatten.length
      = chunkSize * k := by
    rw [toChunks_take_join, List.length_take]
    rw [hds]
    omega
  simp only [bulkUploadContacts, List.isEmpty_iff, h1, if_false, ite_false, Bool.false_eq_true,
    ite_true] at *
  rw [hcl]
  simp [htake, hds]

/-! ## A synthetic batch of 1200 valid, pairwise-distinct records -/

/-- The `j`-th synthetic phone: valid for the schema (length `10 + j ≥ 10`,
digits and hyphens only) and injective in `j`. -/
def phoneOf (j : Nat) : String := "1234567890" ++ String.mk (List.replicate j '-')

def mkRaw (j : Nat) : RawContact := ⟨some "Test", some (phoneOf j), none, none, none⟩

def mkValid (j : Nat) : ValidContact := ⟨"Test", phoneOf j, none, none, none⟩

/-- The 1200-record batch of the chunk-halt scenario. -/
def contacts1200 : List RawContact := (List.range 1200).map mkRaw

def valid1200 : List ValidContact := (List.range 1200).map mkValid

theorem phoneOf_length (j : Nat) : (phoneOf j).length = 10 + j := by
  simp only [phoneOf, String.length_append]
  have h10 : ("1234567890" : String).length = 10 := rfl
  have hmk : (String.mk (List.replicate j '-')).length = j := by
    simp [String.length]
  omega

theorem phoneOf_regex (j : Nat) : phoneRegexOk (phoneOf j) = true := by
  unfold phoneRegexOk
  have hdata : (phoneOf j).data = "1234567890".data ++ List.replicate j '-' := rfl
  rw [hdata]
  have hhead : ("1234567890".data ++ List.replicate j '-').head? = some '1' := rfl
  rw [hhead]
  simp only [show (some '1' = some '+') = False from by simp, if_false]
  rw [Bool.and_eq_true]
  refine ⟨by simp, ?_⟩
  rw [List.all_append, Bool.and_eq_true]
  refine ⟨by decide, ?_⟩
  rw [List.all_eq_true]
  intro c hc
  rw [List.eq_of_mem_replicate hc]
  decide

theorem phoneOf_injective : Function.Injective phoneOf := by
  intro a b h
  have h2 := congrArg String.length h
  rw [phoneOf_length, phoneOf_length] at h2
  omega

theorem parse_mkRaw (j : Nat) : parseContact (mkRaw j) = .ok (mkValid j) := by
  have hn : nameIssues (some "Test") = [] := by decide
  have hp : phoneIssuesCsv (some (phoneOf j)) = [] := by
    simp only [phoneIssuesCsv]
    rw [if_neg (by rw [phoneOf_length]; omega), if_pos (phoneOf_regex j)]
    simp
  simp [parseContact, mkRaw, mkValid, hn, hp]

theorem parsesTo_contacts1200 : parsesTo contacts1200 valid1200 := by
  unfold parsesTo contacts1200 valid1200
  rw [List.map_map, List.map_map]
  refine List.map_congr_left ?_
  intro j _
  exact parse_mkRaw j

theorem valid1200_phones_nodup : (valid1200.map (fun v => v.phone)).Nodup := by
  unfold valid1200
  rw [List.map_map]
  have : ((fun v : ValidContact => v.phone) ∘ mkValid) = phoneOf := rfl
  rw [this]
  exact (List.nodup_range 1200).map phoneOf_injective

theorem valid1200_length : valid1200.length = 1200 := by
  simp [valid1200]

/-- A connection-class chunk failure after `k` clean chunks, on an all-valid
batch: the loop halts with exactly the committed records counted. -/
theorem bulk_conn_halt_all_valid (env : DbEnv) (S : Store) (contacts : List RawContact)
    (vcs : List ValidContact) (k : Nat) (e : DbError)
    (hp : parsesTo contacts vcs)
    (hnd : (vcs.map (fun v => v.phone)).Nodup)
    (hok : ∀ j, j < k → env.tx j = TxOutcome.ok)
    (hfail : env.tx k = TxOutcome.fail e)
    (hconn : isConnectionError e = true)
    (hlt : chunkSize * k < vcs.length) :
    (bulkUploadContacts env S contacts false).report.connectionLost = some true ∧
    (bulkUploadContacts env S contacts false).report.partialUpload = some true ∧
    (bulkUploadContacts env S contacts false).report.processedContacts = some (chunkSize * k) ∧
    (bulkUploadContacts env S contacts false).report.notProcessedContacts =
      some (vcs.length - chunkSize * k) ∧
    (bulkUploadContacts env S contacts false).created = chunkSize * k ∧
    (bulkUploadContacts env S contacts false).upsertCalls = 0 ∧
    (bulkUploadContacts env S contacts false).txAttempts = k + 1 ∧
    (bulkUploadContacts env S contacts false).errors =
      [connSentinel (chunkSize * k) (vcs.length - chunkSize * k)] := by
  have hvd := validateDedup_all_valid contacts vcs hp hnd
  have hspec := bulk_conn_halt_spec env S contacts k e hok hfail hconn (by rw [hvd]; exact hlt)
  rw [hvd] at hspec
  simp only [List.nil_append, List.length_nil, Nat.zero_add] at hspec
  exact ⟨hspec.2.2.1, hspec.2.2.2.1, hspec.2.2.2.2.1, hspec.2.2.2.2.2.1, hspec.1,
    hspec.2.2.2.2.2.2.2.2.2.2, hspec.2.2.2.2.2.2.2.2.2.1, hspec.2.1⟩

/-- A failure environment whose first chunk transaction succeeds and whose
second fails with a Prisma connection-timeout error. -/
def halt1Env : DbEnv :=
  ⟨fun k => if k = 0 then TxOutcome.ok else TxOutcome.fail ⟨some "P1001", "server timeout"⟩,
   fun _ => none, TxOutcome.ok⟩

/-- **C1**: in incremental mode, for a validated batch-unique batch, a
connection-class failure (code P1001/P1008 or a timeout/connection signature)
of the transaction of chunk `k` after `k` clean chunks halts the engine:
`connectionLost` and `partialUpload` are set, `processedContacts` is the count
of the committed chunks (`500 * k`), `notProcessedContacts` the remainder, no
row-by-row salvage upsert is attempted, and no later chunk transaction is
started (`txAttempts = k + 1`); in particular, for 1200 valid unique records
failing in the second chunk, `created = 500`, `processedContacts = 500`,
`notProcessedContacts = 700` and only 2 transactions are attempted (the third
chunk is never started). -/
theorem C1_connection_halt :
    (∀ (env : DbEnv) (S : Store) (contacts : List RawContact) (vcs : List ValidContact)
        (k : Nat) (e : DbError),
      parsesTo contacts vcs →
      (vcs.map (fun v => v.phone)).Nodup →
      (∀ j, j < k → env.tx j = TxOutcome.ok) →
      env.tx k = TxOutcome.fail e →
      isConnectionError e = true →
      chunkSize * k < vcs.length →
      (bulkUploadContacts env S contacts false).report.connectionLost = some true ∧
      (bulkUploadContacts env S contacts false).report.partialUpload = some true ∧
      (bulkUploadContacts env S contacts false).report.processedContacts = some (chunkSize * k) ∧
      (bulkUploadContacts env S contacts false).report.notProcessedContacts =
        some (vcs.length - chunkSize * k) ∧
      (bulkUploadContacts env S contacts false).created = chunkSize * k ∧
      (bulkUploadContacts env S contacts false).upsertCalls = 0 ∧
      (bulkUploadContacts env S contacts false).txAttempts = k + 1 ∧
      (bulkUploadContacts env S contacts false).errors =
        [connSentinel (chunkSize * k) (vcs.length - chunkSize * k)])
  ∧ (∀ (env : DbEnv) (S : Store) (e : DbError),
      (∀ j, j < 1 → env.tx j = TxOutcome.ok) →
      env.tx 1 = TxOutcome.fail e →
      isConnectionError e = true →
      (bulkUploadContacts env S contacts1200 false).created = 500 ∧
      (bulkUploadContacts env S contacts1200 false).report.connectionLost = some true ∧
      (bulkUploadContacts env S contacts1200 false).report.processedContacts = some 500 ∧
      (bulkUploadContacts env S contacts1200 false).report.notProcessedContacts = some 700 ∧
      (bulkUploadContacts env S contacts1200 false).txAttempts = 2 ∧
      (bulkUploadContacts env S contacts1200 false).upsertCalls = 0) := by
  refine ⟨bulk_conn_halt_all_valid, ?_⟩
  intro env S e hok hfail hconn
  have h := bulk_conn_halt_all_valid env S contacts1200 valid1200 1 e parsesTo_contacts1200
    valid1200_phones_nodup hok hfail hconn (by rw [valid1200_length]; simp [chunkSize])
  rw [valid1200_length] at h
  simp only [chunkSize] at h
  exact ⟨h.2.2.2.2.1, h.1, h.2.2.1, h.2.2.2.1, h.2.2.2.2.2.2.1, h.2.2.2.2.2.1⟩

/-- Witness for C1: the 1200-record batch under `halt1Env`. -/
theorem C1_connection_halt_witness :
    (bulkUploadContacts halt1Env [] contacts1200 false).created = 500 ∧
    (bulkUploadContacts halt1Env [] contacts1200 false).report.connectionLost = some true ∧
    (bulkUploadContacts halt1Env [] contacts1200 false).report.processedContacts = some 500 ∧
    (bulkUploadContacts halt1Env [] contacts1200 false).report.notProcessedContacts = some 700 ∧
    (bulkUploadContacts halt1Env [] contacts1200 false).txAttempts = 2 ∧
    (bulkUploadContacts halt1Env [] contacts1200 false).upsertCalls = 0 :=
  C1_connection_halt.2 halt1Env [] ⟨some "P1001", "server timeout"⟩
    (fun j hj => by
      have hj0 : j = 0 := by omega
      subst hj0
      rfl)
    rfl (by decide)

/-! ## The all-success incremental path -/

/-- When every chunk transaction succeeds, the incremental run folds an upsert
of every prepared record over the store and counts them all created. -/
theorem bulk_all_ok_store (env : DbEnv) (S : Store) (contacts : List RawContact)
    (hok : ∀ j, env.tx j = TxOutcome.ok) :
    (bulkUploadContacts env S contacts false).store =
      ((validateDedup contacts).1.map toData).foldl upsert S ∧
    (bulkUploadContacts env S contacts false).created = (validateDedup contacts).1.length := by
  by_cases h1 : (validateDedup contacts).1 = []
  · simp [bulkUploadContacts, h1]
  · have hcl := chunkLoop_all_ok env (validateDedup contacts).1
      (toChunks ((validateDedup contacts).1.map toData)) 0 0
      ⟨S, 0, (validateDedup contacts).2, false, 0, 0⟩ hok
    simp only [bulkUploadContacts, List.isEmpty_iff, h1, if_false, ite_false,
      Bool.false_eq_true, ite_true]
    rw [hcl]
    simp [toChunks_join]

/-- An environment in which every store operation succeeds. -/
def okEnv : DbEnv := ⟨fun _ => TxOutcome.ok, fun _ => none, TxOutcome.ok⟩

def cA : RawContact := ⟨some "Alice", some "1234567890", none, none, none⟩

def cB : RawContact := ⟨some "Bob", some "1234567891", none, none, none⟩

def vA : ValidContact := ⟨"Alice", "1234567890", none, none, none⟩

def vB : ValidContact := ⟨"Bob", "1234567891", none, none, none⟩

/-- **C2**: on an all-valid batch-unique batch, incremental ingestion leaves
exactly one store row per phone of the batch; re-running the identical batch
rewrites those rows in place — the store is unchanged (hence no new rows) and
the second run counts every record as created again (updates, not
duplicates). -/
theorem C2_idempotent_reingestion :
    ∀ (env : DbEnv) (S : Store) (contacts : List RawContact) (vcs : List ValidContact),
      parsesTo contacts vcs →
      (vcs.map (fun v => v.phone)).Nodup →
      (∀ j, env.tx j = TxOutcome.ok) →
      (S.map (fun r => r.phone)).Nodup →
      (∀ v ∈ vcs,
        ((bulkUploadContacts env S contacts false).store).countP
          (fun r => r.phone = v.phone) = 1) ∧
      (bulkUploadContacts env ((bulkUploadContacts env S contacts false).store)
          contacts false).store
        = (bulkUploadContacts env S contacts false).store ∧
      (bulkUploadContacts env ((bulkUploadContacts env S contacts false).store)
          contacts false).created
        = vcs.length := by
  intro env S contacts vcs hp hnd hok hS
  have hvd := validateDedup_all_valid contacts vcs hp hnd
  have h1 := bulk_all_ok_store env S contacts hok
  set T := (bulkUploadContacts env S contacts false).store with hT
  have h2 := bulk_all_ok_store env T contacts hok
  rw [hvd] at h1 h2
  have hdsph : ((vcs.map toData).map (fun r => r.phone)) = vcs.map (fun v => v.phone) := by
    rw [List.map_map]
    rfl
  have hndds : ((vcs.map toData).map (fun r => r.phone)).Nodup := by
    rw [hdsph]
    exact hnd
  have hTfold : T = (vcs.map toData).foldl upsert S := h1.1
  have hTnd : (T.map (fun r => r.phone)).Nodup := by
    rw [hTfold]
    exact foldl_upsert_nodup _ S hS
  have hmemT : ∀ d ∈ vcs.map toData, d ∈ T := by
    rw [hTfold]
    exact fun d hd => foldl_upsert_mem _ S hndds d hd
  refine ⟨?_, ?_, ?_⟩
  · intro v hv
    have hd : toData v ∈ T := hmemT (toData v) (List.mem_map_of_mem toData hv)
    have hcount := countP_phone_eq_one T (toData v) hd hTnd
    simpa [toData] using hcount
  · rw [h2.1]
    exact foldl_upsert_idem _ T hTnd hmemT
  · rw [h2.2]

/-- Witness for C2: the two-record batch under `okEnv` on the empty store. -/
theorem C2_idempotent_reingestion_witness :
    (∀ v ∈ [vA, vB],
      ((bulkUploadContacts okEnv [] [cA, cB] false).store).countP
        (fun r => r.phone = v.phone) = 1) ∧
    (bulkUploadContacts okEnv ((bulkUploadContacts okEnv [] [cA, cB] false).store)
        [cA, cB] false).store
      = (bulkUploadContacts okEnv [] [cA, cB] false).store ∧
    (bulkUploadContacts okEnv ((bulkUploadContacts okEnv [] [cA, cB] false).store)
        [cA, cB] false).created
      = [vA, vB].length :=
  C2_idempotent_reingestion okEnv [] [cA, cB] [vA, vB] rfl (by decide)
    (fun j => rfl) (by decide)

/-- Every validation/dedup error entry carries a positive (1-based) row. -/
theorem validateDedupAux_row_pos (rows : List RawContact) :
    ∀ idx phones vcs errs,
      (∀ e ∈ errs, 1 ≤ e.row) →
      ∀ e ∈ (validateDedupAux rows idx phones vcs errs).2, 1 ≤ e.row := by
  induction rows with
  | nil => intro idx phones vcs errs h; simpa [validateDedupAux] using h
  | cons r rest ih =>
    intro idx phones vcs errs h
    cases hp : parseContact r with
    | error issues =>
      simp only [validateDedupAux, hp]
      refine ih (idx + 1) phones vcs _ ?_
      intro e he
      rcases List.mem_append.mp he with he | he
      · exact h e he
      · rw [List.mem_singleton] at he
        subst he
        rw [errEntryOfIssues_row]
        omega
    | ok v =>
      by_cases hc : phones.contains v.phone = true
      · simp only [validateDedupAux, hp, if_pos hc]
        refine ih (idx + 1) phones vcs _ ?_
        intro e he
        rcases List.mem_append.mp he with he | he
        · exact h e he
        · rw [List.mem_singleton] at he
          subst he
          simp only [dupEntry]
          omega
      · simp only [validateDedupAux, hp, if_neg hc]
        exact ih _ _ _ _ h

theorem validateDedup_row_pos (rows : List RawContact) :
    ∀ e ∈ (validateDedup rows).2, 1 ≤ e.row :=
  validateDedupAux_row_pos rows 0 [] [] [] (by simp)

/-- Report projections of a fully successful incremental run. -/
theorem bulk_all_ok_full (env : DbEnv) (S : Store) (contacts : List RawContact)
    (hok : ∀ j, env.tx j = TxOutcome.ok) :
    (bulkUploadContacts env S contacts false).errors = (validateDedup contacts).2 ∧
    (bulkUploadContacts env S contacts false).report.total = contacts.length ∧
    (bulkUploadContacts env S contacts false).report.created =
      (validateDedup contacts).1.length ∧
    (bulkUploadContacts env S contacts false).report.failed =
      (validateDedup contacts).2.length := by
  by_cases h1 : (validateDedup contacts).1 = []
  · simp [bulkUploadContacts, h1]
  · have hcl := chunkLoop_all_ok env (validateDedup contacts).1
      (toChunks ((validateDedup contacts).1.map toData)) 0 0
      ⟨S, 0, (validateDedup contacts).2, false, 0, 0⟩ hok
    simp only [bulkUploadContacts, List.isEmpty_iff, h1, if_false, ite_false,
      Bool.false_eq_true, ite_true]
    rw [hcl]
    simp [toChunks_join]

/-- Report projections of a replace-all run with a successful bulk insert. -/
theorem bulk_replaceAll_ok_full (env : DbEnv) (S : Store) (contacts : List RawContact)
    (hcm : env.createMany = TxOutcome.ok) :
    (bulkUploadContacts env S contacts true).errors = (validateDedup contacts).2 ∧
    (bulkUploadContacts env S contacts true).report.total = contacts.length ∧
    (bulkUploadContacts env S contacts true).report.created =
      (validateDedup contacts).1.length ∧
    (bulkUploadContacts env S contacts true).report.failed =
      (validateDedup contacts).2.length ∧
    (bulkUploadContacts env S contacts true).store =
      (validateDedup contacts).1.map toData := by
  by_cases h1 : (validateDedup contacts).1 = []
  · simp [bulkUploadContacts, h1]
  · have hndph := validateDedup_nodup contacts
    have hdsph : (((validateDedup contacts).1.map toData).map (fun r => r.phone))
        = (validateDedup contacts).1.map (fun v => v.phone) := by
      rw [List.map_map]
      rfl
    have hins := createManySkipDup_all ((validateDedup contacts).1.map toData) []
      (by rw [hdsph]; exact hndph) (by simp)
    simp only [bulkUploadContacts, List.isEmpty_iff, h1, if_false, ite_false,
      Bool.false_eq_true, ite_true, hcm]
    rw [hins]
    simp

/-- An environment whose chunk transactions fail with a non-transient error and
whose standalone upserts fail from the second record on. -/
def boomEnv : DbEnv :=
  ⟨fun _ => TxOutcome.fail ⟨none, "boom"⟩,
   fun g => if g = 0 then none else some ⟨none, "boom"⟩, TxOutcome.ok⟩

/-- **C3 (amended)**: `total = created + failed` and `failed = len(errors)`
hold on every return path on which no store write fails non-transiently: the
validation-only path, the fully successful incremental path and the replaceAll
path with a successful bulk insert, where no row `-1` sentinel occurs at all.
On the connection-loss path `total = created + failed` still holds and the
sentinel appears exactly once, but `failed` equals the number of non-sentinel
errors **plus** `notProcessedContacts`.  (On the per-record retry path the
report is not recalculated and both identities can fail — see the
counterexample.) -/
theorem C3_row_accounting_amended :
    (∀ (env : DbEnv) (S : Store) (contacts : List RawContact) (replaceAll : Bool),
      env.createMany = TxOutcome.ok →
      (∀ j, env.tx j = TxOutcome.ok) →
      (bulkUploadContacts env S contacts replaceAll).report.total =
        (bulkUploadContacts env S contacts replaceAll).report.created +
          (bulkUploadContacts env S contacts replaceAll).report.failed ∧
      (bulkUploadContacts env S contacts replaceAll).report.failed =
        (bulkUploadContacts env S contacts replaceAll).errors.length ∧
      (∀ e ∈ (bulkUploadContacts env S contacts replaceAll).errors, ¬ (e.row = -1)))
  ∧ (∀ (env : DbEnv) (S : Store) (contacts : List RawContact) (k : Nat) (e : DbError),
      (∀ j, j < k → env.tx j = TxOutcome.ok) →
      env.tx k = TxOutcome.fail e →
      isConnectionError e = true →
      chunkSize * k < (validateDedup contacts).1.length →
      (bulkUploadContacts env S contacts false).report.total =
        (bulkUploadContacts env S contacts false).report.created +
          (bulkUploadContacts env S contacts false).report.failed ∧
      (bulkUploadContacts env S contacts false).report.failed =
        ((bulkUploadContacts env S contacts false).errors.filter
          (fun e2 => ¬ (e2.row = -1))).length +
          (bulkUploadContacts env S contacts false).report.notProcessedContacts.getD 0 ∧
      ((bulkUploadContacts env S contacts false).errors.filter
        (fun e2 => e2.row = -1)).length = 1) := by
  constructor
  · intro env S contacts replaceAll hcm hok
    have hlen := validateDedup_length contacts
    have hrows := validateDedup_row_pos contacts
    cases replaceAll
    · obtain ⟨he, ht, hc, hf⟩ := bulk_all_ok_full env S contacts hok
      rw [he, ht, hc, hf]
      refine ⟨by omega, rfl, ?_⟩
      intro e2 he2
      have := hrows e2 he2
      omega
    · obtain ⟨he, ht, hc, hf, _⟩ := bulk_replaceAll_ok_full env S contacts hcm
      rw [he, ht, hc, hf]
      refine ⟨by omega, rfl, ?_⟩
      intro e2 he2
      have := hrows e2 he2
      omega
  · intro env S contacts k e hok hfail hconn hlt
    have hlen := validateDedup_length contacts
    have hrows := validateDedup_row_pos contacts
    obtain ⟨hcr, herr, _, _, _, hnp, htot, hrcr, hrf, _, _⟩ :=
      bulk_conn_halt_spec env S contacts k e hok hfail hconn hlt
    rw [herr, htot, hrcr, hrf, hnp]
    have hfilter1 : ((validateDedup contacts).2.filter (fun e2 => ¬ (e2.row = -1)))
        = (validateDedup contacts).2 := by
      refine List.filter_eq_self.mpr ?_
      intro a ha
      have := hrows a ha
      simp only [decide_eq_true_eq]
      omega
    have hfilter2 : ((validateDedup contacts).2.filter (fun e2 => e2.row = -1)) = [] := by
      rw [List.filter_eq_nil_iff]
      intro a ha
      have := hrows a ha
      simp only [decide_eq_true_eq]
      omega
    refine ⟨by omega, ?_, ?_⟩
    · rw [List.filter_append, hfilter1]
      simp [connSentinel]
    · rw [List.filter_append, hfilter2]
      simp [connSentinel]

/-- Witness for C3 (amended): a one-record batch under `okEnv`. -/
theorem C3_row_accounting_amended_witness :
    (bulkUploadContacts okEnv [] [cA] false).report.total =
      (bulkUploadContacts okEnv [] [cA] false).report.created +
        (bulkUploadContacts okEnv [] [cA] false).report.failed ∧
    (bulkUploadContacts okEnv [] [cA] false).report.failed =
      (bulkUploadContacts okEnv [] [cA] false).errors.length ∧
    (∀ e ∈ (bulkUploadContacts okEnv [] [cA] false).errors, ¬ (e.row = -1)) :=
  C3_row_accounting_amended.1 okEnv [] [cA] false rfl (fun _ => rfl)

/-- Counterexample to C3 as stated: under `boomEnv` the two-record batch takes
the per-record retry path — the second upsert fails, its error entry is pushed,
but `report.failed` is not recalculated: `total = 2` while
`created + failed = 1 + 0`, and `failed = 0 ≠ 1 = len(errors)` (no sentinel is
present). -/
theorem C3_row_accounting_counterexample :
    ¬ ((bulkUploadContacts boomEnv [] [cA, cB] false).report.total =
         (bulkUploadContacts boomEnv [] [cA, cB] false).report.created +
           (bulkUploadContacts boomEnv [] [cA, cB] false).report.failed ∧
       (bulkUploadContacts boomEnv [] [cA, cB] false).report.failed =
         ((bulkUploadContacts boomEnv [] [cA, cB] false).errors.filter
           (fun e2 => ¬ (e2.row = -1))).length) := by
  decide

def cC : RawContact := ⟨some "Carol", some "1234567890", none, none, none⟩

/-- **C4**: deduplication runs strictly after validation over the set of
phones of the rows kept so far: the first valid occurrence of a phone is kept;
a later valid occurrence at 0-based index `i` is rejected with the duplicate
entry (type `duplicate`, field `phone`, 1-based row `i + 1`); an invalid row is
reported with a validation entry for its row, never of type `duplicate`, and
(as the first conjunct quantifies only over *valid* earlier rows) does not
consume its phone.  Instance: for `[phoneA, phoneB, phoneA]` the first phoneA
row is kept and the third is rejected with the duplicate entry for row 3. -/
theorem C4_validate_then_dedup :
    (∀ (contacts : List RawContact) (i : Nat), ∀ hi : i < contacts.length,
      ∀ v : ValidContact,
      parseContact contacts[i] = .ok v →
      (∀ j, j < i → ∀ w, (hj : j < contacts.length) →
        parseContact contacts[j] = .ok w → w.phone ≠ v.phone) →
      v ∈ (validateDedup contacts).1)
  ∧ (∀ (contacts : List RawContact) (i : Nat), ∀ hi : i < contacts.length,
      ∀ v : ValidContact,
      parseContact contacts[i] = .ok v →
      (∃ j, j < i ∧ ∃ hj : j < contacts.length, ∃ w,
        parseContact contacts[j] = .ok w ∧ w.phone = v.phone) →
      dupEntry (i + 1) v.phone ∈ (validateDedup contacts).2)
  ∧ (∀ (contacts : List RawContact) (i : Nat), ∀ hi : i < contacts.length, ∀ issues,
      parseContact contacts[i] = .error issues →
      ∃ e ∈ (validateDedup contacts).2,
        e.row = ((i + 1 : Nat) : Int) ∧ ¬ (e.type = "duplicate"))
  ∧ validateDedup [cA, cB, cC] = ([vA, vB], [dupEntry 3 "1234567890"]) := by
  refine ⟨?_, ?_, ?_, by decide⟩
  · intro contacts i hi v hv hfirst
    exact validateDedupAux_kept contacts 0 [] [] [] i hi v hv (by simp) hfirst
  · rintro contacts i hi v hv ⟨j, hji, hjlen, w, hw, hwp⟩
    have hdup := validateDedupAux_dup contacts 0 [] [] [] i hi v hv
      (Or.inr ⟨j, hji, hjlen, w, hw, hwp⟩)
    simpa using hdup
  · intro contacts i hi issues hv
    have hmem := validateDedupAux_invalid contacts 0 [] [] [] i hi issues hv
    refine ⟨errEntryOfIssues (0 + i + 1) issues, hmem, ?_, ?_⟩
    · rw [errEntryOfIssues_row]
      norm_num
    · obtain ⟨fi, hhead, hcode⟩ := parseContact_error_head contacts[i] issues hv
      have hcne : ¬ fi.code = "" := by
        rcases hcode with h | h | h <;> rw [h] <;> decide
      rw [errEntryOfIssues_type_of_head (0 + i + 1) issues fi hhead hcne]
      rcases hcode with h | h | h <;> rw [h] <;> decide

/-- Witness for C4: the batch `[cA, cB, cC]` (phones A, B, A): the third row
is rejected with the duplicate entry for row 3, while the first is kept. -/
theorem C4_validate_then_dedup_witness :
    vA ∈ (validateDedup [cA, cB, cC]).1 ∧
    dupEntry 3 "1234567890" ∈ (validateDedup [cA, cB, cC]).2 :=
  ⟨C4_validate_then_dedup.1 [cA, cB, cC] 0 (by decide) vA rfl
     (fun j hj => absurd hj (Nat.not_lt_zero j)),
   C4_validate_then_dedup.2.1 [cA, cB, cC] 2 (by decide) ⟨"Carol", "1234567890", none, none, none⟩
     rfl ⟨0, by decide, by decide, vA, rfl, rfl⟩⟩

def cD : RawContact := ⟨some "Dave", some "1234567892", none, none, none⟩

/-- A non-transient chunk failure followed by one successful, one failing and
one unique-violating standalone upsert. -/
def retryEnv : DbEnv :=
  ⟨fun _ => TxOutcome.fail ⟨none, "boom"⟩,
   fun g =>
     if g = 0 then none
     else if g = 1 then some ⟨none, "boom"⟩
     else some ⟨none, "P2002 Unique constraint failed"⟩,
   TxOutcome.ok⟩

/-- **C8** (behaviour at the failing input): after the chunk transaction fails
non-transiently, every record of the chunk is retried individually
(`upsertCalls = 3`), the success is counted in `created`, the plain failure is
reported as `insert_error` and the unique violation as `duplicate` — but both
error entries carry row 0, not the records' original 1-based rows 2 and 3:
`contacts.indexOf(validContacts[...])` compares object references against the
freshly allocated parse results, always yielding `-1`, so the attributed row is
`-1 + 1 = 0`. -/
theorem C8_retry_row_misattribution :
    (bulkUploadContacts retryEnv [] [cA, cB, cD] false).created = 1 ∧
    (bulkUploadContacts retryEnv [] [cA, cB, cD] false).errors.map
        (fun e => (e.row, e.type, e.field))
      = [(0, "insert_error", some "phone"), (0, "duplicate", some "phone")] ∧
    (bulkUploadContacts retryEnv [] [cA, cB, cD] false).upsertCalls = 3 := by
  decide

/-! ## The document pipeline has no in-batch deduplication -/

theorem errEntryOfIssues_type_ne (row : Nat) (issues : List ZodIssue)
    (h : ∀ x ∈ issues, ¬ x.code = "duplicate") :
    ¬ (errEntryOfIssues row issues).type = "duplicate" := by
  unfold errEntryOfIssues
  cases hh : issues.head? with
  | none => simp
  | some i =>
    have hi : i ∈ issues := by
      cases issues with
      | nil => simp at hh
      | cons a t =>
        simp only [List.head?_cons, Option.some.injEq] at hh
        subst hh
        simp
    by_cases hc : i.code = ""
    · simp [hc]
    · simp only [hc, if_false, ite_false]
      exact h i hi

theorem parseDocument_error_ne_dup (r : RawDocument) (issues : List ZodIssue)
    (h : parseDocument r = .error issues) : ∀ x ∈ issues, ¬ x.code = "duplicate" := by
  have ht : ∀ v, ∀ x ∈ titleIssues v, ¬ x.code = "duplicate" := by
    intro v x hx
    cases v with
    | none => simp [titleIssues] at hx; simp [hx]
    | some s =>
      simp only [titleIssues, List.mem_append] at hx
      rcases hx with hx | hx <;> split at hx <;> simp at hx <;> simp [hx]
  have hl : ∀ v, ∀ x ∈ linkIssues v, ¬ x.code = "duplicate" := by
    intro v x hx
    cases v with
    | none => simp [linkIssues] at hx; simp [hx]
    | some s =>
      simp only [linkIssues, List.mem_append] at hx
      rcases hx with hx | hx <;> split at hx <;> simp at hx <;> simp [hx]
  have hu : ∀ v, ∀ x ∈ uploadedByIssues v, ¬ x.code = "duplicate" := by
    intro v x hx
    cases v with
    | none => simp [uploadedByIssues] at hx
    | some s =>
      simp only [uploadedByIssues] at hx
      split at hx
      · simp at hx
      · simp at hx
        simp [hx]
  cases hn : r.title with
  | none =>
    cases hph : r.link with
    | none =>
      simp only [parseDocument, hn, hph, Except.error.injEq] at h
      intro x hx
      rw [← h, List.mem_append, List.mem_append] at hx
      rcases hx with (hx | hx) | hx
      · exact ht _ x hx
      · exact hl _ x hx
      · exact hu _ x hx
    | some p =>
      simp only [parseDocument, hn, hph, Except.error.injEq] at h
      intro x hx
      rw [← h, List.mem_append, List.mem_append] at hx
      rcases hx with (hx | hx) | hx
      · exact ht _ x hx
      · exact hl _ x hx
      · exact hu _ x hx
  | some n =>
    cases hph : r.link with
    | none =>
      simp only [parseDocument, hn, hph, Except.error.injEq] at h
      intro x hx
      rw [← h, List.mem_append, List.mem_append] at hx
      rcases hx with (hx | hx) | hx
      · exact ht _ x hx
      · exact hl _ x hx
      · exact hu _ x hx
    | some p =>
      simp only [parseDocument, hn, hph] at h
      by_cases hemp : (titleIssues (some n) ++ linkIssues (some p)
          ++ uploadedByIssues r.uploadedBy).isEmpty = true
      · rw [if_pos hemp] at h
        cases h
      · rw [if_neg hemp] at h
        simp only [Except.error.injEq] at h
        intro x hx
        rw [← h, List.mem_append, List.mem_append] at hx
        rcases hx with (hx | hx) | hx
        · exact ht _ x hx
        · exact hl _ x hx
        · exact hu _ x hx

theorem validateDocsAux_type_ne_dup (rows : List RawDocument) :
    ∀ idx vds errs,
      (∀ e ∈ errs, ¬ e.type = "duplicate") →
      ∀ e ∈ (validateDocsAux rows idx vds errs).2, ¬ e.type = "duplicate" := by
  induction rows with
  | nil => intro idx vds errs h; simpa [validateDocsAux] using h
  | cons r rest ih =>
    intro idx vds errs h
    cases hp : parseDocument r with
    | error issues =>
      simp only [validateDocsAux, hp]
      refine ih (idx + 1) vds _ ?_
      intro e he
      rcases List.mem_append.mp he with he | he
      · exact h e he
      · rw [List.mem_singleton] at he
        subst he
        exact errEntryOfIssues_type_ne _ issues (parseDocument_error_ne_dup r issues hp)
    | ok v =>
      simp only [validateDocsAux, hp]
      exact ih (idx + 1) (vds ++ [v]) errs h

theorem validateDocs_type_ne_dup (rows : List RawDocument) :
    ∀ e ∈ (validateDocs rows).2, ¬ e.type = "duplicate" :=
  validateDocsAux_type_ne_dup rows 0 [] [] (by simp)

theorem docBulk_all_ok (env : DbEnv) (S : DocStore) (docs : List RawDocument)
    (hok : ∀ j, env.tx j = TxOutcome.ok) :
    (bulkUploadDocuments env S docs false).errors = (validateDocs docs).2 ∧
    (bulkUploadDocuments env S docs false).created = (validateDocs docs).1.length ∧
    (bulkUploadDocuments env S docs false).store =
      S ++ (validateDocs docs).1.map docToData := by
  by_cases h1 : (validateDocs docs).1 = []
  · simp [bulkUploadDocuments, h1]
  · have hcl := docChunkLoop_all_ok env (toDocChunks ((validateDocs docs).1.map docToData)) 0
      ⟨S, 0, (validateDocs docs).2, false, 0⟩ hok
    simp only [bulkUploadDocuments, List.isEmpty_iff, h1, if_false, ite_false,
      Bool.false_eq_true, ite_true]
    rw [hcl]
    simp [toDocChunks_flatten]
def dT : RawDocument := ⟨some "T", some "https://example.com/a", none⟩

/-- **C5 (amended)**: `bulkUploadDocuments` performs no within-batch
deduplication whatsoever: on the incremental path with all transactions
succeeding, no error entry of kind `duplicate` is ever produced and *every*
valid row — including one whose (title, link) pair exactly repeats an earlier
row of the same batch — is appended to the store. -/
theorem C5_no_document_dedup_amended :
    ∀ (env : DbEnv) (S : DocStore) (docs : List RawDocument),
      (∀ j, env.tx j = TxOutcome.ok) →
      (∀ e ∈ (bulkUploadDocuments env S docs false).errors, ¬ (e.type = "duplicate")) ∧
      (bulkUploadDocuments env S docs false).created = (validateDocs docs).1.length ∧
      (bulkUploadDocuments env S docs false).store =
        S ++ (validateDocs docs).1.map docToData := by
  intro env S docs hok
  obtain ⟨he, hc, hs⟩ := docBulk_all_ok env S docs hok
  refine ⟨?_, hc, hs⟩
  rw [he]
  exact validateDocs_type_ne_dup docs

/-- Witness for C5 (amended): the duplicate pair under `okEnv`. -/
theorem C5_no_document_dedup_amended_witness :
    (∀ e ∈ (bulkUploadDocuments okEnv [] [dT, dT] false).errors, ¬ (e.type = "duplicate")) ∧
    (bulkUploadDocuments okEnv [] [dT, dT] false).created = (validateDocs [dT, dT]).1.length ∧
    (bulkUploadDocuments okEnv [] [dT, dT] false).store =
      [] ++ (validateDocs [dT, dT]).1.map docToData :=
  C5_no_document_dedup_amended okEnv [] [dT, dT] (fun _ => rfl)

/-- Counterexample to C5 as stated: a batch of two identical (title, link)
documents produces no error at all (in particular no `duplicate` rejection)
and writes both rows to the store. -/
theorem C5_no_document_dedup_counterexample :
    (bulkUploadDocuments okEnv [] [dT, dT] false).errors = [] ∧
    (bulkUploadDocuments okEnv [] [dT, dT] false).created = 2 ∧
    (bulkUploadDocuments okEnv [] [dT, dT] false).store =
      [⟨"T", "https://example.com/a", none⟩, ⟨"T", "https://example.com/a", none⟩] := by
  decide

/-! ## Row survival in the file normalizer -/

/-- Whether one column of a raw row switches `hasRequiredFields` on: a named
non-`sno` column mapping to `phone` with a non-empty normalized phone, or one
mapping to `name` with a non-empty (truthy) field value. -/
def entryContributes (kv : String × CellValue) : Bool :=
  if kv.1 = "" then false
  else
    let nk := normalizeColumnName kv.1
    if nk = "sno" then false
    else if nk = "phone" then
      if normalizePhoneNumber kv.2 = "" then false else true
    else if nk = "name" then
      if cellToFieldValue kv.2 = "" then false else true
    else false

theorem normalizeEntry_snd (acc : List (String × String) × Bool) (kv : String × CellValue) :
    (normalizeEntry acc kv).2 = (acc.2 || entryContributes kv) := by
  unfold normalizeEntry entryContributes
  by_cases h1 : kv.1 = ""
  · simp [h1]
  · simp only [h1, if_false, ite_false]
    by_cases h2 : normalizeColumnName kv.1 = "sno"
    · simp [h2]
    · simp only [h2, if_false, ite_false]
      by_cases h3 : normalizeColumnName kv.1 = "phone"
      · simp only [h3, if_true, ite_true]
        by_cases h4 : normalizePhoneNumber kv.2 = ""
        · simp [h4]
        · simp [h4]
      · simp only [h3, if_false, ite_false]
        by_cases h5 : normalizeColumnName kv.1 = "name"
        · simp only [h5, if_true, ite_true]
          by_cases h6 : cellToFieldValue kv.2 = ""
          · simp [h6]
          · simp [h6]
        · simp only [h5, if_false, ite_false]
          by_cases h6 : cellToFieldValue kv.2 = ""
          · simp [h6]
          · simp [h6]

theorem foldl_normalizeEntry_snd (rec : RawRecord) :
    ∀ acc, (rec.foldl normalizeEntry acc).2 = (acc.2 || rec.any entryContributes) := by
  induction rec with
  | nil => intro acc; simp
  | cons kv rest ih =>
    intro acc
    rw [List.foldl_cons, ih, List.any_cons, normalizeEntry_snd]
    simp [Bool.or_assoc]

theorem entryContributes_eq_true (kv : String × CellValue) :
    entryContributes kv = true ↔
      ((¬ kv.1 = "" ∧ normalizeColumnName kv.1 = "phone" ∧
          ¬ normalizePhoneNumber kv.2 = "") ∨
       (¬ kv.1 = "" ∧ normalizeColumnName kv.1 = "name" ∧
          ¬ cellToFieldValue kv.2 = "")) := by
  unfold entryContributes
  by_cases h1 : kv.1 = ""
  · simp [h1]
  · by_cases h2 : normalizeColumnName kv.1 = "sno"
    · simp [h1, h2]
    · by_cases h3 : normalizeColumnName kv.1 = "phone"
      · by_cases h4 : normalizePhoneNumber kv.2 = "" <;> simp [h1, h2, h3, h4]
      · by_cases h5 : normalizeColumnName kv.1 = "name"
        · by_cases h6 : cellToFieldValue kv.2 = "" <;> simp [h1, h2, h3, h5, h6]
        · simp [h1, h2, h3, h5]

/-- **C6 (amended)**: a raw row survives normalization (is handed on to
validation) **iff** at least one of the two required fields is present after
mapping — a non-empty normalized phone **or** a non-empty name
(`hasRequiredFields` is a single flag set by either branch, not a conjunction);
rows with neither contribute nothing to the normalized output (second
conjunct), i.e. are dropped silently. -/
theorem C6_row_survival_amended :
    (∀ rec : RawRecord,
      (normalizeRecord rec).isSome = true ↔
        ((∃ kv ∈ rec, ¬ kv.1 = "" ∧ normalizeColumnName kv.1 = "phone" ∧
            ¬ normalizePhoneNumber kv.2 = "") ∨
         (∃ kv ∈ rec, ¬ kv.1 = "" ∧ normalizeColumnName kv.1 = "name" ∧
            ¬ cellToFieldValue kv.2 = "")))
  ∧ (∀ recs : List RawRecord,
      (normalizeRecords recs).length =
        (recs.filter (fun rec => (normalizeRecord rec).isSome)).length) := by
  constructor
  · intro rec
    unfold normalizeRecord
    by_cases he : rec.isEmpty
    · have hnil : rec = [] := by simpa using he
      subst hnil
      simp
    · simp only [he, Bool.false_eq_true, if_false, ite_false]
      have hf := foldl_normalizeEntry_snd rec ([], false)
      by_cases hp : (rec.foldl normalizeEntry ([], false)).2
      · simp only [hp, if_true, ite_true, Option.isSome_some, true_iff]
        rw [hp] at hf
        have hany : rec.any entryContributes = true := by simpa using hf.symm
        rw [List.any_eq_true] at hany
        obtain ⟨kv, hkv, hc⟩ := hany
        rcases (entryContributes_eq_true kv).mp hc with h | h
        · exact Or.inl ⟨kv, hkv, h⟩
        · exact Or.inr ⟨kv, hkv, h⟩
      · simp only [hp, if_false, ite_false, Option.isSome_none, Bool.false_eq_true, false_iff]
        rintro (⟨kv, hkv, h⟩ | ⟨kv, hkv, h⟩)
        · have : rec.any entryContributes = true :=
            List.any_eq_true.mpr ⟨kv, hkv, (entryContributes_eq_true kv).mpr (Or.inl h)⟩
          rw [this] at hf
          simp at hf
          exact hp hf
        · have : rec.any entryContributes = true :=
            List.any_eq_true.mpr ⟨kv, hkv, (entryContributes_eq_true kv).mpr (Or.inr h)⟩
          rw [this] at hf
          simp at hf
          exact hp hf
  · intro recs
    unfold normalizeRecords
    induction recs with
    | nil => rfl
    | cons r t ih =>
      cases hr : normalizeRecord r <;>
        simp [List.filterMap_cons, List.filter_cons, hr, ih]
/-- Counterexample to C6 as stated: a row carrying only a name and no phone at
all survives normalization and reaches validation, though the claim says a row
missing either required field is dropped. -/
theorem C6_row_survival_counterexample :
    normalizeRecord [("name", CellValue.str "John")] = some [("name", "John")] ∧
    normalizeRecords [[("name", CellValue.str "John")]] = [[("name", "John")]] := by
  decide

/-! ## Phone validation bounds and controller gates -/

/-- **C7 (amended)**: the phone field of the CSV ingestion schema accepts a
string exactly when it matches `/^[+]?[\\d\\s-()]+$/` and is at least 10
characters long (no upper bound); the single-create schema additionally caps
the length at 15.  Phones of length 1-9 are rejected by both, contrary to the
claimed 1-15 window. -/
theorem C7_phone_rule_amended :
    (∀ s : String, phoneAcceptedCsv s = true ↔ (phoneRegexOk s = true ∧ 10 ≤ s.length))
  ∧ (∀ s : String, phoneAcceptedCreate s = true ↔
      (phoneRegexOk s = true ∧ 10 ≤ s.length ∧ s.length ≤ 15)) := by
  constructor
  · intro s
    unfold phoneAcceptedCsv
    simp only [phoneIssuesCsv]
    by_cases h1 : s.length < 10 <;> by_cases h2 : phoneRegexOk s = true <;>
      simp [h1, h2] <;> omega
  · intro s
    unfold phoneAcceptedCreate phoneIssuesCreate
    by_cases h1 : s.length < 10 <;> by_cases h2 : 15 < s.length <;>
      by_cases h3 : phoneRegexOk s = true <;> simp [h1, h2, h3] <;> omega

/-- Counterexample to C7 as stated: the 9-digit phone "123456789" matches the
permissive pattern and has length within 1..15, yet both schemas reject it. -/
theorem C7_phone_rule_counterexample :
    phoneRegexOk "123456789" = true ∧
    ("123456789" : String).length = 9 ∧
    phoneAcceptedCsv "123456789" = false ∧
    phoneAcceptedCreate "123456789" = false := by
  decide

/-- **C9 (amended)**: the JSON bulk-create entry point rejects exactly the
missing, non-array, empty and over-1000 bodies (1000 accepted, 1001 rejected
before any row is touched); the parsed-file bulk-upload entry point checks only
`Array.isArray` — it rejects exactly non-array bodies and accepts empty arrays
and arrays longer than 1000. -/
theorem C9_batch_size_gate_amended :
    (∀ b : Body, (bulkCreateValidate b).isOk = true ↔
      (∃ xs : List RawContact, b = Body.arr xs ∧ ¬ xs = [] ∧ xs.length ≤ 1000))
  ∧ (∀ xs : List RawContact, xs.length = 1000 →
      (bulkCreateValidate (Body.arr xs)).isOk = true)
  ∧ (∀ xs : List RawContact, xs.length = 1001 →
      (bulkCreateValidate (Body.arr xs)).isOk = false)
  ∧ (∀ b : Body, (bulkUploadValidate b).isOk = true ↔ ∃ xs, b = Body.arr xs) := by
  refine ⟨?_, ?_, ?_, ?_⟩
  · intro b
    cases b with
    | missing => simp [bulkCreateValidate, Except.isOk, Except.toBool]
    | scalar => simp [bulkCreateValidate, Except.isOk, Except.toBool]
    | arr xs =>
      by_cases h1 : xs.length = 0
      · have hnil : xs = [] := List.length_eq_zero.mp h1
        subst hnil
        simp [bulkCreateValidate, Except.isOk, Except.toBool]
      · by_cases h2 : 1000 < xs.length
        · simp only [bulkCreateValidate]
          rw [if_neg h1, if_pos h2]
          simp only [Except.isOk, Except.toBool, Bool.false_eq_true, false_iff]
          rintro ⟨ys, hys, hne, hlen⟩
          rw [Body.arr.injEq] at hys
          subst hys
          omega
        · simp only [bulkCreateValidate]
          rw [if_neg h1, if_neg h2]
          simp only [Except.isOk, Except.toBool, true_iff]
          exact ⟨xs, rfl, fun hnil => h1 (by simp [hnil]), by omega⟩
  · intro xs h
    have h1 : ¬ xs.length = 0 := by omega
    have h2 : ¬ 1000 < xs.length := by omega
    simp only [bulkCreateValidate]
    rw [if_neg h1, if_neg h2]
    rfl
  · intro xs h
    have h1 : ¬ xs.length = 0 := by omega
    have h2 : 1000 < xs.length := by omega
    simp only [bulkCreateValidate]
    rw [if_neg h1, if_pos h2]
    rfl
  · intro b
    cases b with
    | missing => simp [bulkUploadValidate, Except.isOk, Except.toBool]
    | scalar => simp [bulkUploadValidate, Except.isOk, Except.toBool]
    | arr xs => simp [bulkUploadValidate, Except.isOk, Except.toBool]

/-- Witness for C9 (amended): arrays of exactly 1000 and 1001 copies. -/
theorem C9_batch_size_gate_amended_witness :
    (bulkCreateValidate (Body.arr (List.replicate 1000 cA))).isOk = true ∧
    (bulkCreateValidate (Body.arr (List.replicate 1001 cA))).isOk = false :=
  ⟨C9_batch_size_gate_amended.2.1 (List.replicate 1000 cA) (List.length_replicate 1000 cA),
   C9_batch_size_gate_amended.2.2.1 (List.replicate 1001 cA) (List.length_replicate 1001 cA)⟩

/-- Counterexample to C9 as stated: the parsed-file entry point accepts an
array of 1001 records and an empty array outright — neither is rejected. -/
theorem C9_batch_size_gate_counterexample :
    (bulkUploadValidate (Body.arr (List.replicate 1001 cA))).isOk = true ∧
    (bulkUploadValidate (Body.arr ([] : List RawContact))).isOk = true :=
  ⟨rfl, rfl⟩

/-! ## Replace-all deletes before validation -/

def badRow : RawContact := ⟨some "", some "123", none, none, none⟩

def preData : ContactData := ⟨"Old", "1234567899", none, none, none⟩

/-- **C10**: with `replaceAll = true` the store is wiped before any row is
validated: the whole outcome is independent of the pre-existing store contents,
and for a batch in which every row fails validation the run still returns
`created = 0` over an emptied store — replace-all is not atomic and never
preserves the old contents. -/
theorem C10_replaceAll_deletes_before_validation :
    (∀ (env : DbEnv) (contacts : List RawContact) (S T : Store),
        bulkUploadContacts env S contacts true = bulkUploadContacts env T contacts true)
  ∧ (∀ (env : DbEnv) (contacts : List RawContact) (S : Store),
        (validateDedup contacts).1 = [] →
        (bulkUploadContacts env S contacts true).store = [] ∧
        (bulkUploadContacts env S contacts true).created = 0) := by
  constructor
  · intro env contacts S T
    rfl
  · intro env contacts S h
    simp [bulkUploadContacts, h]

/-- Witness for C10: an all-invalid one-row batch over a non-empty store is
destroyed: `created = 0` and the store ends empty. -/
theorem C10_replaceAll_deletes_before_validation_witness :
    (validateDedup [badRow]).1 = [] ∧
    (bulkUploadContacts okEnv [preData] [badRow] true).store = [] ∧
    (bulkUploadContacts okEnv [preData] [badRow] true).created = 0 :=
  ⟨by decide,
   (C10_replaceAll_deletes_before_validation.2 okEnv [badRow] [preData] (by decide)).1,
   (C10_replaceAll_deletes_before_validation.2 okEnv [badRow] [preData] (by decide)).2⟩

end ContactsBackend
